import Mathlib

/-!
# Verification of the taco-playground block tree model and condition compiler

This file is a shallow embedding of the core of the taco-playground repository:

* the `Block` / `BlockInput` visual tree data model,
* the two condition-compiler variants found in the source
  (`V1.blockToJson` / `V1.blocksToJson`: the early compiler;
   `V2.processBlock` / `V2.blocksToJson`: the later compiler that processes
   all top-level blocks),
* the block-tree editor operations of `DraggableBlock`
  (`attachIntoOperator` / `nestedAttach` for drops, `handleRemoveCondition`
   for detach, `handleValueChange` for literal edits, `handleAddParameter`),
* the chain-id validator `getValidChainId` of `EncryptionPanel`.

JavaScript semantics (truthiness, `parseInt`, `parseFloat`, `JSON.parse`,
string `||` defaults) are modelled explicitly by the `js*` helpers below.
JavaScript numbers are modelled as exact rationals (`Rat`) plus an explicit
`NaN`; no claim in this development depends on binary floating-point rounding.
-/

/-! ## JSON-ish runtime values -/

/-- A JavaScript/JSON runtime value as it can appear in block properties,
`returnValueTest.value`, or `parameters`.  `nan` is the JS `NaN` (producible
by `parseInt`/`parseFloat`, never by `JSON.parse`). -/
inductive JVal : Type where
  | str (s : String)
  | num (q : Rat)
  | nan
  | bool (b : Bool)
  | null
  | arr (elems : List JVal)
  | obj (fields : List (String × JVal))

/-- JS truthiness of a runtime value ( `""`, `0`, `NaN`, `false`, `null`
are falsy; arrays and objects are always truthy). -/
def jvalTruthy : JVal → Bool
  | .str s => !(s == "")
  | .num q => !(q == 0)
  | .nan => false
  | .bool b => b
  | .null => false
  | .arr _ => true
  | .obj _ => true

/-- `a || d` for an optional JS value slot: keeps `a` when present and truthy,
otherwise yields the default `d`. -/
def jvalOr (o : Option JVal) (d : JVal) : JVal :=
  match o with
  | some v => if jvalTruthy v then v else d
  | none => d

/-- JS truthiness of an optional string (absent and `""` are falsy). -/
def strTruthy : Option String → Bool
  | some s => !(s == "")
  | none => false

/-- `s || d` on optional strings: JS string-or-default. -/
def jsOr (o : Option String) (d : String) : String :=
  match o with
  | some s => if s == "" then d else s
  | none => d

/-- `n || d` for an optional JS number known to be an integer
(`undefined` and `0` are falsy). -/
def jsOrInt (o : Option Int) (d : Int) : Int :=
  match o with
  | some n => if n == 0 then d else n
  | none => d

/-! ## JS `parseInt` / `parseFloat` -/

/-- Decimal digit value of a character, if any (codes 48–57). -/
def decDigit? (c : Char) : Option Nat :=
  let n := c.toNat
  if 48 ≤ n ∧ n ≤ 57 then some (n - 48) else none

/-- Hexadecimal digit value of a character, if any
(codes 48–57, 97–102, 65–70). -/
def hexDigit? (c : Char) : Option Nat :=
  let n := c.toNat
  if 48 ≤ n ∧ n ≤ 57 then some (n - 48)
  else if 97 ≤ n ∧ n ≤ 102 then some (n - 87)
  else if 65 ≤ n ∧ n ≤ 70 then some (n - 55)
  else none

/-- Accumulate a maximal run of digits (base `base`) onto `acc`,
stopping at the first non-digit, as JS numeric prefix parsing does. -/
def digitsValue (digit? : Char → Option Nat) (base : Nat) : List Char → Nat → Nat
  | [], acc => acc
  | c :: cs, acc =>
    match digit? c with
    | some d => digitsValue digit? base cs (acc * base + d)
    | none => acc

/-- Parse a non-empty maximal digit run; `none` when the first character is
not a digit (JS yields `NaN` then). -/
def parseDigitRun (digit? : Char → Option Nat) (base : Nat) : List Char → Option Nat
  | c :: cs =>
    match digit? c with
    | some d => some (digitsValue digit? base cs d)
    | none => none
  | [] => none

/-- Split an optional leading sign, returning the sign as `1` or `-1`. -/
def splitSign : List Char → Int × List Char
  | '-' :: rest => (-1, rest)
  | '+' :: rest => (1, rest)
  | cs => (1, cs)

/-- JS `parseInt(s)`: skip leading whitespace, optional sign, auto-detected
hex prefix `0x`/`0X`, then a maximal digit run; `none` models `NaN`. -/
def jsParseInt (s : String) : Option Int :=
  let cs := s.toList.dropWhile Char.isWhitespace
  let (sign, cs1) := splitSign cs
  match cs1 with
  | '0' :: 'x' :: rest => (parseDigitRun hexDigit? 16 rest).map (fun n => sign * (n : Int))
  | '0' :: 'X' :: rest => (parseDigitRun hexDigit? 16 rest).map (fun n => sign * (n : Int))
  | rest => (parseDigitRun decDigit? 10 rest).map (fun n => sign * (n : Int))

/-- Split off the maximal leading decimal-digit run. -/
def digitSpan : List Char → List Char × List Char
  | [] => ([], [])
  | c :: cs =>
    match decDigit? c with
    | some _ =>
      let p := digitSpan cs
      (c :: p.1, p.2)
    | none => ([], c :: cs)

/-- Numeric value of a list of decimal digit characters. -/
def digitsToNat (ds : List Char) : Nat :=
  digitsValue decDigit? 10 ds 0

/-- Powers of ten (kept first-order so that concrete values compute). -/
def pow10 : Nat → Nat
  | 0 => 1
  | n + 1 => 10 * pow10 n

/-- The exact rational `sign * (int.frac) * 10^exp` of a parsed decimal. -/
def decimalRat (sign : Int) (intDs fracDs : List Char) (expPart : Int) : Rat :=
  let num0 : Int := sign *
    ((digitsToNat intDs : Int) * (pow10 fracDs.length : Int) + (digitsToNat fracDs : Int))
  let den0 : Nat := pow10 fracDs.length
  if 0 ≤ expPart then mkRat (num0 * (pow10 expPart.toNat : Int)) den0
  else mkRat num0 (den0 * pow10 (-expPart).toNat)

/-- JS `parseFloat(s)` on the decimal fragment
`[+-]? digits [. digits] [(e|E) [+-]? digits]`, as an exact rational;
`none` models `NaN`.  (Binary-float rounding is not modelled; no result
below depends on a `parseFloat` value.) -/
def jsParseFloat (s : String) : Option Rat :=
  let cs := s.toList.dropWhile Char.isWhitespace
  let (sign, cs1) := splitSign cs
  let (intDs, rest1) := digitSpan cs1
  let (fracDs, rest2) :=
    match rest1 with
    | '.' :: r => digitSpan r
    | _ => ([], rest1)
  if intDs.isEmpty && fracDs.isEmpty then none
  else
    let expPart : Int :=
      match rest2 with
      | 'e' :: r =>
        let (esign, r1) := splitSign r
        let (eds, _) := digitSpan r1
        if eds.isEmpty then 0 else esign * (digitsToNat eds : Int)
      | 'E' :: r =>
        let (esign, r1) := splitSign r
        let (eds, _) := digitSpan r1
        if eds.isEmpty then 0 else esign * (digitsToNat eds : Int)
      | _ => 0
    some (decimalRat sign intDs fracDs expPart)

/-- The JS number produced by `parseInt`, as a `JVal` (`NaN` when no digits). -/
def jvalOfParseInt (s : String) : JVal :=
  match jsParseInt s with
  | some n => .num (n : Rat)
  | none => .nan

/-! ## A small model of the platform `JSON.parse`

The later compiler parses the free-text `parameters` and `functionAbi`
inputs with `JSON.parse`, catching parse errors.  `JSON.parse` is a platform
builtin, modelled here by a recursive-descent parser over the JSON grammar
(strings with the standard escapes, numbers, booleans, `null`, arrays,
objects).  No theorem below depends on the value it returns. -/

/-- Skip JSON whitespace (space, tab, newline, carriage return). -/
def skipWs (cs : List Char) : List Char :=
  cs.dropWhile (fun c => c.toNat == 32 || c.toNat == 9 || c.toNat == 10 || c.toNat == 13)

/-- The character denoted by a single-character JSON escape, if valid:
quote, slash and backslash stand for themselves; `n`, `t`, `r`, `b`, `f`
for the control characters 10, 9, 13, 8, 12. -/
def jsonEscape? (e : Char) : Option Char :=
  if e == '"' || e == '/' || e == '\\' then some e
  else if e == 'n' then some (Char.ofNat 10)
  else if e == 't' then some (Char.ofNat 9)
  else if e == 'r' then some (Char.ofNat 13)
  else if e == 'b' then some (Char.ofNat 8)
  else if e == 'f' then some (Char.ofNat 12)
  else none

/-- Parse the body of a JSON string after the opening quote, handling
escape sequences; returns the string and the rest after the closing quote. -/
def parseJStringBody : List Char → Option (String × List Char)
  | [] => none
  | '"' :: rest => some ("", rest)
  | '\\' :: 'u' :: h1 :: h2 :: h3 :: h4 :: rest =>
    match hexDigit? h1, hexDigit? h2, hexDigit? h3, hexDigit? h4 with
    | some w, some x, some y, some z =>
      (parseJStringBody rest).map
        (fun p => (String.mk (Char.ofNat (w * 4096 + x * 256 + y * 16 + z) :: p.1.toList), p.2))
    | _, _, _, _ => none
  | '\\' :: e :: rest =>
    match jsonEscape? e with
    | some c => (parseJStringBody rest).map (fun p => (String.mk (c :: p.1.toList), p.2))
    | none => none
  | c :: rest =>
    (parseJStringBody rest).map (fun p => (String.mk (c :: p.1.toList), p.2))

/-- Parse a JSON number (integer part required, optional fraction and
exponent), returning its exact rational value. -/
def parseJNumber (cs : List Char) : Option (Rat × List Char) :=
  let (sign, cs1) := splitSign cs
  let (intDs, rest1) := digitSpan cs1
  if intDs.isEmpty then none
  else
    let (fracDs, rest2) :=
      match rest1 with
      | '.' :: r => digitSpan r
      | _ => ([], rest1)
    let (expv, rest3) :=
      match rest2 with
      | 'e' :: r =>
        let (es, r1) := splitSign r
        let (eds, r2) := digitSpan r1
        if eds.isEmpty then ((0 : Int), rest2) else (es * (digitsToNat eds : Int), r2)
      | 'E' :: r =>
        let (es, r1) := splitSign r
        let (eds, r2) := digitSpan r1
        if eds.isEmpty then ((0 : Int), rest2) else (es * (digitsToNat eds : Int), r2)
      | _ => ((0 : Int), rest2)
    some (decimalRat sign intDs fracDs expv, rest3)

mutual

/-- Parse one JSON value (fuel-bounded recursive descent). -/
def parseJValue (fuel : Nat) (cs : List Char) : Option (JVal × List Char) :=
  match fuel with
  | 0 => none
  | fuel + 1 =>
    match skipWs cs with
    | '"' :: rest => (parseJStringBody rest).map (fun p => (.str p.1, p.2))
    | '{' :: rest => parseJObj fuel (skipWs rest)
    | '[' :: rest => parseJArr fuel (skipWs rest)
    | 't' :: 'r' :: 'u' :: 'e' :: rest => some (.bool true, rest)
    | 'f' :: 'a' :: 'l' :: 's' :: 'e' :: rest => some (.bool false, rest)
    | 'n' :: 'u' :: 'l' :: 'l' :: rest => some (.null, rest)
    | other => (parseJNumber other).map (fun p => (.num p.1, p.2))

/-- Parse the elements of a JSON array after `[` (ws already skipped). -/
def parseJArr (fuel : Nat) (cs : List Char) : Option (JVal × List Char) :=
  match fuel with
  | 0 => none
  | fuel + 1 =>
    match cs with
    | ']' :: rest => some (.arr [], rest)
    | _ =>
      match parseJValue fuel cs with
      | some (v, rest) => parseJArrTail fuel [v] (skipWs rest)
      | none => none

/-- Parse `, value`* `]` continuing a JSON array. -/
def parseJArrTail (fuel : Nat) (acc : List JVal) (cs : List Char) : Option (JVal × List Char) :=
  match fuel with
  | 0 => none
  | fuel + 1 =>
    match cs with
    | ']' :: rest => some (.arr acc.reverse, rest)
    | ',' :: rest =>
      match parseJValue fuel (skipWs rest) with
      | some (v, rest') => parseJArrTail fuel (v :: acc) (skipWs rest')
      | none => none
    | _ => none

/-- Parse the members of a JSON object after `{` (ws already skipped). -/
def parseJObj (fuel : Nat) (cs : List Char) : Option (JVal × List Char) :=
  match fuel with
  | 0 => none
  | fuel + 1 =>
    match cs with
    | '}' :: rest => some (.obj [], rest)
    | _ => parseJObjMember fuel [] cs

/-- Parse one `"key": value` member and the object tail. -/
def parseJObjMember (fuel : Nat) (acc : List (String × JVal)) (cs : List Char) :
    Option (JVal × List Char) :=
  match fuel with
  | 0 => none
  | fuel + 1 =>
    match cs with
    | '"' :: rest =>
      match parseJStringBody rest with
      | some (key, rest1) =>
        match skipWs rest1 with
        | ':' :: rest2 =>
          match parseJValue fuel (skipWs rest2) with
          | some (v, rest3) =>
            match skipWs rest3 with
            | ',' :: rest4 => parseJObjMember fuel ((key, v) :: acc) (skipWs rest4)
            | '}' :: rest4 => some (.obj ((key, v) :: acc).reverse, rest4)
            | _ => none
          | none => none
        | _ => none
      | none => none
    | _ => none

end

/-- Model of the platform `JSON.parse(s)`: `none` models a thrown
`SyntaxError` (which the source catches and logs). -/
def jsJsonParse (s : String) : Option JVal :=
  match parseJValue (s.length + 1) s.toList with
  | some (v, rest) => if (skipWs rest).isEmpty then some v else none
  | none => none

/-! ## The Block data model (`BlockTypes`)

`Block` and `BlockInput` are the recursive schema of the visual tree.
A `BlockInput` is modelled as a pair of its scalar data (`SlotData`) and its
optional `connected` child, which keeps the nested recursion manageable. -/

/-- A `ReturnValueTest`: comparator plus compared value. -/
structure RVT where
  comparator : String
  value : JVal

/-- The kind-specific `properties` mapping of a Block.  Absent keys are
`none` (JS `undefined`). -/
structure Props where
  conditionType : Option String := none
  method : Option String := none
  operator : Option String := none
  standardContractType : Option String := none
  maxInputs : Option Int := none
  parameterCount : Option Int := none
  parameters : Option JVal := none
  returnValueTest : Option RVT := none
  canAddParameters : Option Bool := none

/-- The scalar fields of a Block (everything except its input slots). -/
structure BlockData where
  id : String
  type : String
  category : String := ""
  label : String := ""
  value : Option String := none
  isTemplate : Bool := false
  properties : Option Props := none

/-- The scalar fields of a `BlockInput` slot (everything except `connected`). -/
structure SlotData where
  id : String
  label : String := ""
  types : List String := []
  value : Option String := none
  comparator : Option String := none
  inputType : Option String := none

/-- A node of the visual block tree: its scalar data plus its ordered input
slots, each slot being `SlotData` paired with its optional `connected`
child Block. -/
inductive Block : Type where
  | mk (data : BlockData) (inputs : List (SlotData × Option Block))

/-- The scalar data of a block. -/
def Block.data : Block → BlockData
  | .mk d _ => d

/-- The input slots of a block. -/
def Block.inputs : Block → List (SlotData × Option Block)
  | .mk _ i => i

/-- A block's `id`. -/
def Block.id (b : Block) : String := b.data.id

/-- A block's `type` (`condition`, `operator` or `value`). -/
def Block.type (b : Block) : String := b.data.type

/-- A block's literal `value` (used by value blocks). -/
def Block.value (b : Block) : Option String := b.data.value

/-! ## The Condition AST (`types/taco`) -/

/-- The compiled condition document: the four variants of the Taco
condition AST. -/
inductive Cond : Type where
  | time (chain : Int) (method : String) (returnValueTest : RVT)
  | rpc (chain : Int) (method : String) (parameters : JVal) (returnValueTest : RVT)
  | contract (chain : Int) (contractAddress : String) (method : String)
      (parameters : JVal) (standardContractType : Option String) (returnValueTest : RVT)
  | compound (operator : String) (operands : List Cond)

/-! ## Chain-id helpers -/

/-- `isValidChainId` (both compiler variants): membership in the closed
chain set. -/
def isValidChainId (chainId : Int) : Bool :=
  [(1 : Int), 137, 80002, 11155111].contains chainId

/-- `parseChainId` (first compiler variant): parse, check, and silently
default to Sepolia on an invalid or unparseable value. -/
def parseChainId (value : String) : Int :=
  match jsParseInt value with
  | some parsed => if isValidChainId parsed then parsed else 11155111
  | none => 11155111

/-- `getValidChainId` from `EncryptionPanel.createCondition`: returns the
chain if it is in the valid set, otherwise throws an error enumerating the
valid chains. -/
def getValidChainId (chain : Int) : Except String Int :=
  let validChains : List Int := [137, 80002, 11155111, 1]
  match validChains.find? (fun i => i == chain) with
  | some chainId => .ok chainId
  | none => .error ("Invalid chain ID. Must be one of: " ++
      String.intercalate ", " (validChains.map toString))

/-! ## First compiler variant (`blockToJson` / `blocksToJson`)

The early compiler in the source: recursive `blockToJson` over a root block
selected by `blocksToJson`. -/

namespace V1

/-- The `time` branch of `blockToJson`: defaults, then chain and
`minTimestamp` overrides. -/
def timeCondition (d : BlockData) (inputs : List (SlotData × Option Block)) : Cond :=
  let chain : Int :=
    match inputs.find? (fun input => input.1.id == "chain") with
    | some chainInput =>
      if strTruthy chainInput.1.value then parseChainId (chainInput.1.value.getD "")
      else 11155111
    | none => 11155111
  let returnValueTest : RVT :=
    match inputs.find? (fun input => input.1.id == "minTimestamp") with
    | some timestampInput =>
      if strTruthy timestampInput.1.value then
        { comparator := jsOr timestampInput.1.comparator ">=",
          value := jvalOfParseInt (timestampInput.1.value.getD "") }
      else { comparator := ">=", value := .num 0 }
    | none => { comparator := ">=", value := .num 0 }
  let _ := d
  .time chain "blocktime" returnValueTest

/-- The `rpc` branch of `blockToJson`: defaults, then chain / `method` /
`parameters` / `minBalance` overrides. -/
def rpcCondition (d : BlockData) (inputs : List (SlotData × Option Block)) : Cond :=
  let props := d.properties
  let chain : Int :=
    match inputs.find? (fun input => input.1.id == "chain") with
    | some chainInput =>
      if strTruthy chainInput.1.value then parseChainId (chainInput.1.value.getD "")
      else 11155111
    | none => 11155111
  let method : String := jsOr (props.bind Props.method) "eth_getBalance"
  let parameters : JVal :=
    match props.bind Props.parameters with
    | some ps => if jvalTruthy ps then ps else .arr [.str ":userAddress", .str "latest"]
    | none => .arr [.str ":userAddress", .str "latest"]
  let returnValueTest : RVT :=
    match inputs.find? (fun input => input.1.id == "minBalance") with
    | some balanceInput =>
      if strTruthy balanceInput.1.value then
        { comparator := jsOr balanceInput.1.comparator ">=",
          value := jvalOfParseInt (balanceInput.1.value.getD "") }
      else { comparator := ">=", value := .str "0" }
    | none => { comparator := ">=", value := .str "0" }
  .rpc chain method parameters returnValueTest

/-- The `contract` branch of `blockToJson`: defaults (`balanceOf`,
`[":userAddress"]`, …), then the slot/property overrides. -/
def contractCondition (d : BlockData) (inputs : List (SlotData × Option Block)) : Cond :=
  let props := d.properties
  let chain : Int :=
    match inputs.find? (fun input => input.1.id == "chain") with
    | some chainInput =>
      if strTruthy chainInput.1.value then parseChainId (chainInput.1.value.getD "")
      else 11155111
    | none => 11155111
  let contractAddress : String :=
    match inputs.find? (fun input => input.1.id == "contractAddress") with
    | some contractInput =>
      if strTruthy contractInput.1.value then contractInput.1.value.getD "" else ""
    | none => ""
  let standardContractType : Option String :=
    if strTruthy (props.bind Props.standardContractType) then props.bind Props.standardContractType
    else none
  let method : String := jsOr (props.bind Props.method) "balanceOf"
  let parameters : JVal :=
    match props.bind Props.parameters with
    | some ps => if jvalTruthy ps then ps else .arr [.str ":userAddress"]
    | none => .arr [.str ":userAddress"]
  let returnValueTest : RVT :=
    match inputs.find? (fun input => input.1.id == "tokenAmount") with
    | some tokenAmountInput =>
      if strTruthy tokenAmountInput.1.value then
        { comparator := jsOr tokenAmountInput.1.comparator ">=",
          value := jvalOfParseInt (tokenAmountInput.1.value.getD "") }
      else
        match props.bind Props.returnValueTest with
        | some rvt => rvt
        | none => { comparator := ">=", value := .str "0" }
    | none =>
      match props.bind Props.returnValueTest with
      | some rvt => rvt
      | none => { comparator := ">=", value := .str "0" }
  .contract chain contractAddress method parameters standardContractType returnValueTest

end V1

namespace V1

/-- The non-recursive `condition`-kind dispatch of `blockToJson`
(`properties?.conditionType`, falsy or unsupported values yield `null`). -/
def conditionToJson (d : BlockData) (inputs : List (SlotData × Option Block)) : Option Cond :=
  match d.properties.bind Props.conditionType with
  | some "time" => some (timeCondition d inputs)
  | some "rpc" => some (rpcCondition d inputs)
  | some "contract" => some (contractCondition d inputs)
  | _ => none

end V1

/-- Size bound used for the compilers' termination: the connected children
of a slot list are smaller than the list itself. -/
theorem sizeOf_filterMap_snd_le (l : List (SlotData × Option Block)) :
    sizeOf (l.filterMap Prod.snd) ≤ sizeOf l := by
  induction l with
  | nil => simp
  | cons p rest ih =>
    obtain ⟨s, c⟩ := p
    cases c <;> simp [List.filterMap_cons] <;> omega

namespace V1

mutual

/-- `blockToJson` (first compiler variant): operator blocks become compound
conditions over the recursively compiled connected children (dropping the
`null` ones, and becoming `null` themselves when no operand remains);
condition blocks dispatch on `conditionType`; anything else is `null`. -/
def blockToJson : Block → Option Cond
  | .mk d inputs =>
    if d.type == "operator" then
      let operands := (compileEach (inputs.filterMap Prod.snd)).reduceOption
      if operands.length == 0 then none
      else some (.compound (jsOr (d.properties.bind Props.operator) "and") operands)
    else if d.type == "condition" then
      conditionToJson d inputs
    else none
termination_by b => sizeOf b
decreasing_by
  simp_wf
  apply Nat.lt_of_le_of_lt (sizeOf_filterMap_snd_le _)
  omega

/-- `.map(blockToJson)` over the connected children. -/
def compileEach : List Block → List (Option Cond)
  | [] => []
  | b :: rest => blockToJson b :: compileEach rest
termination_by l => sizeOf l
decreasing_by
  all_goals simp_wf <;> omega

end

/-- `blocksToJson` (first compiler variant): pick the first standalone
`condition`/`operator` block as root and compile it. -/
def blocksToJson (blocks : List Block) : Option Cond :=
  if blocks.length == 0 then none
  else
    let rootBlock := blocks.find? (fun block =>
      (block.type == "condition" || block.type == "operator") &&
      !(blocks.any (fun b =>
        b.type == "operator" &&
        b.inputs.any (fun input =>
          match input.2 with
          | some c => c.id == block.id
          | none => false))))
    match rootBlock with
    | some rb => blockToJson rb
    | none => none

end V1

/-! ## Second compiler variant (`processBlock` inside `blocksToJson`)

The later compiler in the source: a `ConditionBuilder` is folded over the
inputs of a condition block, then dispatched on
`eth_getBalance` / `contract` / `time`; operator blocks become compound
conditions (with possibly empty operand lists); all top-level blocks are
processed and combined with `and`. -/

namespace V2

/-- The mutable `ConditionBuilder` accumulated over a block's inputs. -/
structure ConditionBuilder where
  conditionType : Option String := none
  chain : Option Int := none
  contractAddress : Option String := none
  method : Option String := none
  parameters : Option JVal := none
  returnValueTest : Option RVT := none
  functionAbi : Option JVal := none

/-- The effective value of an input: `input.value || input.connected?.value`
(JS `||`). -/
def effectiveValue (input : SlotData × Option Block) : Option String :=
  if strTruthy input.1.value then input.1.value
  else input.2.bind Block.value

/-- One iteration of the `block.inputs?.forEach` switch: skip falsy values,
then update the builder according to the input's id.  (The source's
`value !== '0'` guard is vacuous for string values, since the string `"0"`
is truthy.)  A `tokenId` input would crash the source on a non-array
`builder.parameters`; that branch leaves the builder unchanged here and is
unreachable for catalog blocks. -/
def processInput (props : Props) (builder : ConditionBuilder)
    (input : SlotData × Option Block) : ConditionBuilder :=
  match effectiveValue input with
  | none => builder
  | some v =>
    if v == "" then builder
    else if input.1.id == "contractAddress" then
      { builder with contractAddress := some v.trim }
    else if input.1.id == "chain" then
      match jsParseInt v with
      | some chainId =>
        if isValidChainId chainId then { builder with chain := some chainId } else builder
      | none => builder
    else if input.1.id == "minBalance" then
      match jsParseFloat v with
      | some balance =>
        { builder with returnValueTest := some (RVT.mk
            (if props.method == some "eth_getBalance" then ">=" else ">")
            (.num balance)) }
      | none => builder
    else if input.1.id == "timestamp" || input.1.id == "minTimestamp" then
      match jsParseInt v with
      | some timestamp =>
        { builder with
          conditionType := some "time",
          method := some "blocktime",
          returnValueTest := some (RVT.mk ">=" (.num (timestamp : Rat))) }
      | none => builder
    else if input.1.id == "tokenId" then
      match builder.parameters.getD (.arr []) with
      | .arr ps =>
        { builder with parameters := some (.arr (ps.map (fun p =>
            match p with
            | .str s => if s == ":tokenId" then .str v else .str s
            | other => other))) }
      | _ => builder
    else if input.1.id == "method" then
      { builder with method := some v }
    else if input.1.id == "parameters" then
      match jsJsonParse v with
      | some ps => { builder with parameters := some ps }
      | none => builder
    else if input.1.id == "functionAbi" then
      match jsJsonParse v with
      | some abi => { builder with functionAbi := some abi }
      | none => builder
    else builder

/-- The post-`forEach` dispatch of `processBlock` on a condition block:
`eth_getBalance` RPC, then `contract`, then `time`, else `null`. -/
def dispatchBuilder (props : Props) (builder : ConditionBuilder) : Option Cond :=
  if props.method == some "eth_getBalance" && builder.chain.isSome then
    some (.rpc (builder.chain.getD 0) "eth_getBalance"
      (.arr [.str ":userAddress", .str "latest"])
      (builder.returnValueTest.getD { comparator := ">=", value := .num 0 }))
  else if props.conditionType == some "contract" && builder.chain.isSome &&
      strTruthy builder.method then
    some (.contract (builder.chain.getD 0) (jsOr builder.contractAddress "")
      (builder.method.getD "")
      (jvalOr builder.parameters (.arr []))
      props.standardContractType
      (builder.returnValueTest.getD { comparator := ">", value := .num 0 }))
  else if builder.conditionType == some "time" && builder.chain.isSome then
    some (.time (builder.chain.getD 0) "blocktime"
      (builder.returnValueTest.getD { comparator := ">=", value := .num 0 }))
  else none

/-- The condition-block path of `processBlock` (everything after the
operator early-return): fold the builder over the inputs, then dispatch. -/
def processConditionBlock (props : Props) (inputs : List (SlotData × Option Block)) :
    Option Cond :=
  dispatchBuilder props (inputs.foldl (processInput props) {})

mutual

/-- `processBlock` (second compiler variant): `null` without properties;
operator blocks become compound conditions over the compiled connected
children (dropped when `null`, the compound itself is emitted even with an
empty operand list); other blocks go through the builder dispatch. -/
def processBlock : Block → Option Cond
  | .mk d inputs =>
    match d.properties with
    | none => none
    | some props =>
      if d.type == "operator" then
        let operands := (processEach (inputs.filterMap Prod.snd)).reduceOption
        some (.compound (jsOr props.operator "and") operands)
      else
        processConditionBlock props inputs
termination_by b => sizeOf b
decreasing_by
  simp_wf
  apply Nat.lt_of_le_of_lt (sizeOf_filterMap_snd_le _)
  omega

/-- `.map(processBlock)` over the connected children. -/
def processEach : List Block → List (Option Cond)
  | [] => []
  | b :: rest => processBlock b :: processEach rest
termination_by l => sizeOf l
decreasing_by
  all_goals simp_wf <;> omega

end

/-- Whether some block in the workspace has `blockId` as a connected child
(the test used to select top-level blocks). -/
def isConnectedIn (blocks : List Block) (blockId : String) : Bool :=
  blocks.any (fun b => b.inputs.any (fun input =>
    match input.2 with
    | some c => c.id == blockId
    | none => false))

/-- The top-level blocks of the workspace: those not connected into any
other block. -/
def topLevelBlocks (blocks : List Block) : List Block :=
  blocks.filter (fun block => !(isConnectedIn blocks block.id))

/-- `blocksToJson` (second compiler variant): process only top-level blocks;
one top-level block is compiled directly, several are compiled
independently, `null` results dropped, and the survivors combined with a
compound `and` (unless zero or one survive). -/
def blocksToJson (blocks : List Block) : Option Cond :=
  let topLevel := topLevelBlocks blocks
  if topLevel.length == 0 then none
  else if topLevel.length == 1 then
    match topLevel.head? with
    | some b => processBlock b
    | none => none
  else
    let conditions := (processEach topLevel).reduceOption
    if conditions.length == 0 then none
    else if conditions.length == 1 then conditions.head?
    else some (.compound "and" conditions)

end V2

/-! ## Block tree editor operations (`DraggableBlock`)

The drop / detach / value-edit / add-parameter handlers.  The source
deep-clones the root block (`JSON.parse(JSON.stringify(block))`) and mutates
the clone; here each handler is a pure function from the old tree to the
new one.  `Date.now()`-based fresh slot ids are passed in as `freshId`. -/

/-- Replace the first element satisfying `p` by `f` applied to it;
`none` when no element matches (the JS `find` failed, so nothing happens). -/
def updateFirst (p : α → Bool) (f : α → α) : List α → Option (List α)
  | [] => none
  | x :: xs =>
    if p x then some (f x :: xs)
    else (updateFirst p f xs).map (fun ys => x :: ys)

/-- The fresh empty growth slot pushed onto an operator's inputs
(`id: condition-<Date.now()>`, `type: ['condition','operator']`,
`label: 'Add Condition'`). -/
def growthSlot (freshId : String) : SlotData × Option Block :=
  ({ id := freshId, label := "Add Condition", types := ["condition", "operator"],
     value := none, comparator := none, inputType := none }, none)

/-- Initialization of a dropped block: clear `isTemplate` and default every
input's `value` to `''` and `inputType` to `'text'` (JS `||` defaults). -/
def initDropped (item : Block) : Block :=
  .mk { item.data with isTemplate := false }
    (item.inputs.map (fun input =>
      ({ input.1 with
         value := some (jsOr input.1.value ""),
         inputType := some (jsOr input.1.inputType "text") }, input.2)))

/-- JS `!maxInputs || connectedCount < maxInputs`: the growth-slot bound
check (an absent or `0` bound never blocks growth). -/
def growthBoundOk (maxInputs : Option Int) (connectedCount : Nat) : Bool :=
  match maxInputs with
  | none => true
  | some m => if m == 0 then true else (connectedCount : Int) < m

/-- The direct operator drop path of `handleDrop` (the
`block.type === 'operator'` branch): connect the dropped block to the slot
`inputId` (replacing any previous child), relabel that slot
`Condition <connected count>`, and append a fresh growth slot when the
filled slot was the last one and the `maxInputs` bound does not block it.
`none` when no input matches `inputId` (the handler then does nothing). -/
def attachIntoOperator (block : Block) (inputId : String) (item : Block)
    (freshId : String) : Option Block :=
  match updateFirst (fun input => input.1.id == inputId)
      (fun input => (input.1, some (initDropped item))) block.inputs with
  | none => none
  | some inputs1 =>
    let connectedCount := (inputs1.filter (fun input => input.2.isSome)).length
    let inputs2 := (updateFirst (fun input => input.1.id == inputId)
      (fun input => ({ input.1 with label := "Condition " ++ toString connectedCount },
        input.2)) inputs1).getD inputs1
    let lastOk :=
      match inputs2.getLast? with
      | some lastInput => lastInput.1.id == inputId
      | none => false
    let maxInputs := (block.data.properties.map Props.maxInputs).join
    let inputs3 :=
      if lastOk && growthBoundOk maxInputs connectedCount then
        inputs2 ++ [growthSlot freshId]
      else inputs2
    some (.mk block.data inputs3)

/-- The inner transformation of the nested drop path of `handleDrop`
(lines operating on `parentInput.connected`): connect the dropped block at
slot `inputId` of the child block, and, when the child is an operator,
append a fresh growth slot under the same last-slot / bound conditions
(no relabeling happens on this path). -/
def nestedAttachChild (connectedBlock : Block) (inputId : String) (item : Block)
    (freshId : String) : Option Block :=
  match updateFirst (fun input => input.1.id == inputId)
      (fun input => (input.1, some (initDropped item))) connectedBlock.inputs with
  | none => none
  | some inputs1 =>
    if connectedBlock.type == "operator" then
      let connectedCount := (inputs1.filter (fun input => input.2.isSome)).length
      let maxInputs := (connectedBlock.data.properties.map Props.maxInputs).join
      let lastOk :=
        match inputs1.getLast? with
        | some lastInput => lastInput.1.id == inputId
        | none => false
      let inputs2 :=
        if lastOk && growthBoundOk maxInputs connectedCount then
          inputs1 ++ [growthSlot freshId]
        else inputs1
      some (.mk connectedBlock.data inputs2)
    else some (.mk connectedBlock.data inputs1)

/-- The nested drop path of `handleDrop` (a `parentInputId` is given):
find the parent slot, require a connected child there, transform the child
with `nestedAttachChild`, and store it back. -/
def nestedAttach (block : Block) (parentInputId inputId : String) (item : Block)
    (freshId : String) : Option Block :=
  match block.inputs.find? (fun input => input.1.id == parentInputId) with
  | some parentInput =>
    match parentInput.2 with
    | some connectedBlock =>
      match nestedAttachChild connectedBlock inputId item freshId with
      | some connectedBlock' =>
        some (.mk block.data
          ((updateFirst (fun input => input.1.id == parentInputId)
            (fun input => (input.1, some connectedBlock')) block.inputs).getD block.inputs))
      | none => none
    | none => none
  | none => none

/-- The `nonEmptyInputs.map((input, index) => ({...input, label:
`Condition ${index+1}`}))` relabeling, written with an explicit running
index. -/
def relabelConditions (index : Nat) : List (SlotData × Option Block) →
    List (SlotData × Option Block)
  | [] => []
  | input :: rest =>
    ({ input.1 with label := "Condition " ++ toString (index + 1) }, input.2) ::
      relabelConditions (index + 1) rest

/-- `handleRemoveCondition` (detach): on an operator block, clear
`connected` on the slot `inputId`, keep only the still-connected inputs
relabeled `Condition 1..k`, and append one fresh empty growth slot.
Non-operator blocks are returned unchanged (the handler still fires). -/
def handleRemoveCondition (block : Block) (inputId : String) (freshId : String) : Block :=
  if block.type == "operator" then
    let cleared := (updateFirst (fun input => input.1.id == inputId)
      (fun input => (input.1, none)) block.inputs).getD block.inputs
    let nonEmptyInputs := cleared.filter (fun input => input.2.isSome)
    .mk block.data (relabelConditions 0 nonEmptyInputs ++ [growthSlot freshId])
  else .mk block.data block.inputs

/-- `findAndUpdateInput` inside `handleValueChange`: follow `path` through
`connected` children (first slot matching each path id must have a child),
then set `value := v` on the first slot matching `targetId`; `none` when
the path or the target cannot be resolved (no update happens then). -/
def findAndUpdateInput (b : Block) (targetId : String) (path : List String)
    (v : String) : Option Block :=
  match path with
  | [] =>
    (updateFirst (fun input => input.1.id == targetId)
      (fun input => ({ input.1 with value := some v }, input.2)) b.inputs).map
      (fun inputs' => .mk b.data inputs')
  | nextInputId :: restPath =>
    match b.inputs.find? (fun input => input.1.id == nextInputId) with
    | some nextInput =>
      match nextInput.2 with
      | some connected =>
        (findAndUpdateInput connected targetId restPath v).map (fun connected' =>
          .mk b.data
            ((updateFirst (fun input => input.1.id == nextInputId)
              (fun input => (input.1, some connected')) b.inputs).getD b.inputs))
      | none => none
    | none => none

/-- `handleValueChange` (setValue): with a non-empty `parentPath`, delegate
to `findAndUpdateInput`; otherwise set the value on the first top-level slot
matching `inputId`.  (The source's special `chain` case sets the raw value
exactly like the general case.)  `none` when nothing was updated. -/
def handleValueChange (block : Block) (inputId : String) (v : String)
    (parentPath : List String) : Option Block :=
  if parentPath.isEmpty then
    (updateFirst (fun input => input.1.id == inputId)
      (fun input => ({ input.1 with value := some v }, input.2)) block.inputs).map
      (fun inputs' => .mk block.data inputs')
  else findAndUpdateInput block inputId parentPath v

/-- JS `Array.findIndex`, with `none` for `-1`. -/
def jsFindIndex (p : α → Bool) : List α → Option Nat
  | [] => none
  | x :: xs => if p x then some 0 else (jsFindIndex p xs).map (fun i => i + 1)

/-- Insert an element at position `n` (JS `splice(n, 0, a)`; positions past
the end append). -/
def listInsertAt (n : Nat) (a : α) : List α → List α
  | l =>
    match n, l with
    | 0, l => a :: l
    | _ + 1, [] => [a]
    | n + 1, x :: xs => x :: listInsertAt n a xs

/-- JS `String.split(sep)` for a one-character separator, over character
lists (kept first-order so that concrete values compute). -/
def splitOnChar (sep : Char) : List Char → List (List Char)
  | [] => [[]]
  | c :: cs =>
    if c == sep then [] :: splitOnChar sep cs
    else
      match splitOnChar sep cs with
      | [] => [[c]]
      | w :: ws => (c :: w) :: ws

/-- Whether an input is recognized as the parameter slot `param_<k>`:
its id starts with `param_` (`id.startsWith('param_')`) and the segment
after the first `_` (`id.split('_')[1]`) parses to `k`. -/
def isParamSlot (k : Int) (input : SlotData × Option Block) : Bool :=
  (input.1.id.toList.take 6 == "param_".toList) &&
    (jsParseInt (String.mk ((splitOnChar '_' input.1.id.toList).getD 1 [])) == some k)

/-- The fresh parameter slot created by `handleAddParameter`. -/
def newParamSlot (paramCount : Int) : SlotData × Option Block :=
  ({ id := "param_" ++ toString paramCount, label := "Parameter " ++ toString (paramCount + 1),
     types := ["value"], value := none, comparator := none, inputType := some "text" }, none)

/-- `handleAddParameter`: with `paramCount = properties.parameterCount || 1`,
insert a `param_<paramCount>` slot labelled `Parameter <paramCount+1>` right
after the slot recognized as `param_<paramCount-1>` (append at the end when
none is found), and set `properties.parameterCount := paramCount + 1`. -/
def handleAddParameter (block : Block) : Block :=
  let paramCount : Int := jsOrInt (block.data.properties.bind Props.parameterCount) 1
  let newParam := newParamSlot paramCount
  let inputs' :=
    match jsFindIndex (isParamSlot (paramCount - 1)) block.inputs with
    | some lastParamIndex => listInsertAt (lastParamIndex + 1) newParam block.inputs
    | none => block.inputs ++ [newParam]
  let props' := { block.data.properties.getD {} with parameterCount := some (paramCount + 1) }
  .mk { block.data with properties := some props' } inputs'

/-! ## Observation helpers used by the theorems -/

/-- The number of trailing empty (unconnected) slots of an input list. -/
def trailingEmptyCount (inputs : List (SlotData × Option Block)) : Nat :=
  (inputs.reverse.takeWhile (fun input => input.2.isNone)).length

mutual

/-- The tree with every slot's literal `value` erased: two blocks have the
same skeleton exactly when they agree on everything except slot values
(ids, labels, types, properties, block values, and the whole `connected`
structure). -/
def skeleton : Block → Block
  | .mk d inputs => .mk d (skeletonSlots inputs)

/-- `skeleton` mapped over a slot list. -/
def skeletonSlots : List (SlotData × Option Block) → List (SlotData × Option Block)
  | [] => []
  | (s, none) :: rest => ({ s with value := none }, none) :: skeletonSlots rest
  | (s, some c) :: rest => ({ s with value := none }, some (skeleton c)) :: skeletonSlots rest

end

/-- Read the literal value of the slot addressed by a path of input ids
followed through `connected` children (first-match navigation, as the
handlers do); `none` when the address does not resolve. -/
def valueAt (b : Block) (path : List String) (slotId : String) : Option (Option String) :=
  match path with
  | [] => (b.inputs.find? (fun input => input.1.id == slotId)).map (fun input => input.1.value)
  | nextInputId :: restPath =>
    match b.inputs.find? (fun input => input.1.id == nextInputId) with
    | some nextInput =>
      match nextInput.2 with
      | some connected => valueAt connected restPath slotId
      | none => none
    | none => none

/-! ## Concrete example blocks

Closed inputs used by the witnesses and counterexamples below.  They are
shaped like the catalog blocks of the playground (a `chain` slot, numeric
test slots, operator growth slots). -/

/-- Scenario A data: a `time` condition block. -/
def timeBlockData : BlockData :=
  { id := "time-1", type := "condition",
    properties := some { conditionType := some "time" } }

/-- Scenario A inputs: `chain = "11155111"`,
`minTimestamp = {value: "1700000000", comparator: ">="}`. -/
def timeBlockInputs : List (SlotData × Option Block) :=
  [({ id := "chain", label := "Chain", value := some "11155111" }, none),
   ({ id := "minTimestamp", label := "Min Timestamp", value := some "1700000000",
      comparator := some ">=" }, none)]

/-- The Scenario A `time` block as a Block value. -/
def timeBlockOne : Block := .mk timeBlockData timeBlockInputs

/-- A `time` block shaped like Scenario A whose `minTimestamp` slot carries
the explicit comparator `">"` instead of `">="`. -/
def timeCompGtBlock : Block := .mk
  { id := "time-gt", type := "condition",
    properties := some { conditionType := some "time" } }
  [({ id := "chain", label := "Chain", value := some "11155111" }, none),
   ({ id := "minTimestamp", label := "Min Timestamp", value := some "1700000000",
      comparator := some ">" }, none)]

/-- A `time` block whose chain slot holds the invalid value `"999"` and whose
`minTimestamp` slot holds `"5"`. -/
def timeChain999Block : Block := .mk
  { id := "time-999t", type := "condition",
    properties := some { conditionType := some "time" } }
  [({ id := "chain", label := "Chain", value := some "999" }, none),
   ({ id := "minTimestamp", label := "Min Timestamp", value := some "5",
      comparator := some ">=" }, none)]

/-- A `time` block whose chain slot holds the invalid value `"999"`. -/
def chain999Block : Block := .mk
  { id := "time-999", type := "condition",
    properties := some { conditionType := some "time" } }
  [({ id := "chain", label := "Chain", value := some "999" }, none)]

/-- An `rpc` / `eth_getBalance` block whose properties carry an explicit
`parameters` array `["bogus"]`. -/
def rpcParamsBlock : Block := .mk
  { id := "rpc-1", type := "condition",
    properties := some
      { conditionType := some "rpc", method := some "eth_getBalance",
        parameters := some (.arr [.str "bogus"]) } }
  [({ id := "chain", label := "Chain", value := some "137" }, none)]

/-- Data of a `contract` block with no `method` entry in its properties. -/
def contractNoMethodData : BlockData :=
  { id := "contract-1", type := "condition",
    properties := some { conditionType := some "contract" } }

/-- Inputs of the method-less `contract` block: only a chain slot. -/
def contractNoMethodInputs : List (SlotData × Option Block) :=
  [({ id := "chain", label := "Chain", value := some "137" }, none)]

/-- A `contract` block with no `method` entry in its properties (and no
`method` input), and no `contractAddress`. -/
def contractNoMethodBlock : Block := .mk contractNoMethodData contractNoMethodInputs

/-- Data of an `and` operator block. -/
def emptyAndData : BlockData :=
  { id := "op-1", type := "operator", properties := some { operator := some "and" } }

/-- A single empty growth slot (zero connected operands). -/
def emptyAndInputs : List (SlotData × Option Block) :=
  [({ id := "condition-1", label := "Add Condition",
      types := ["condition", "operator"] }, none)]

/-- An `and` operator block with a single, empty growth slot
(zero connected operands). -/
def emptyAndBlock : Block := .mk emptyAndData emptyAndInputs

/-- A second `time`-shaped condition block for the second compiler variant
(chain `1`, timestamp `5`). -/
def timeBlockTwo : Block := .mk
  { id := "time-2", type := "condition", properties := some {} }
  [({ id := "chain", label := "Chain", value := some "1" }, none),
   ({ id := "minTimestamp", label := "Min Timestamp", value := some "5" }, none)]

/-- Data of an `or` operator block with no `maxInputs` bound. -/
def orOneSlotData : BlockData :=
  { id := "op-or", type := "operator", properties := some { operator := some "or" } }

/-- The single empty growth slot of the `or` operator block. -/
def orOneSlot : SlotData × Option Block :=
  ({ id := "slot0", label := "Add Condition",
     types := ["condition", "operator"] }, none)

/-- An `or` operator block with one empty growth slot and no `maxInputs`
bound. -/
def orOneSlotBlock : Block := .mk orOneSlotData [orOneSlot]

/-- An operator block with `maxInputs = 0` and one empty growth slot. -/
def maxZeroOpBlock : Block := .mk
  { id := "op-z", type := "operator",
    properties := some { operator := some "and", maxInputs := some 0 } }
  [({ id := "slot0", label := "Add Condition",
      types := ["condition", "operator"] }, none)]

/-- Data of an operator block with two connected children. -/
def twoChildOpData : BlockData :=
  { id := "op-2", type := "operator", properties := some { operator := some "and" } }

/-- First connected slot of the two-child operator. -/
def slotAPair : SlotData × Option Block :=
  ({ id := "slotA", label := "Condition 1",
     types := ["condition", "operator"] }, some chain999Block)

/-- Second connected slot of the two-child operator. -/
def slotBPair : SlotData × Option Block :=
  ({ id := "slotB", label := "Condition 2",
     types := ["condition", "operator"] }, some contractNoMethodBlock)

/-- Trailing empty growth slot of the two-child operator. -/
def slotCPair : SlotData × Option Block :=
  ({ id := "slotC", label := "Add Condition",
     types := ["condition", "operator"] }, none)

/-- An operator block with two connected children and a trailing growth
slot (used for detach). -/
def twoChildOpBlock : Block := .mk twoChildOpData [slotAPair, slotBPair, slotCPair]

/-- A condition block with `parameterCount = 0` (and no `param_*` inputs),
satisfying the parameter-contiguity invariant vacuously. -/
def paramZeroBlock : Block := .mk
  { id := "pz", type := "condition",
    properties := some { canAddParameters := some true, parameterCount := some 0 } }
  []

/-- Data of a contract-call block with two parameter slots and
`parameterCount = 2`. -/
def paramTwoData : BlockData :=
  { id := "p2", type := "condition",
    properties := some { canAddParameters := some true, parameterCount := some 2 } }

/-- The `contractAddress` slot of the two-parameter block. -/
def pSlotAddr : SlotData × Option Block :=
  ({ id := "contractAddress", label := "Contract Address" }, none)

/-- The `param_0` slot of the two-parameter block. -/
def pSlot0 : SlotData × Option Block :=
  ({ id := "param_0", label := "Parameter 1", types := ["value"] }, none)

/-- The `param_1` slot of the two-parameter block. -/
def pSlot1 : SlotData × Option Block :=
  ({ id := "param_1", label := "Parameter 2", types := ["value"] }, none)

/-- The `tokenAmount` slot of the two-parameter block. -/
def pSlotAmt : SlotData × Option Block :=
  ({ id := "tokenAmount", label := "Token Amount" }, none)

/-- A contract-call block with two parameter slots and
`parameterCount = 2`. -/
def paramTwoBlock : Block := .mk paramTwoData [pSlotAddr, pSlot0, pSlot1, pSlotAmt]

/-- An `eth_getBalance` balance-check block for the second compiler variant
(chain `137`, `minBalance 1`). -/
def ethBalanceBlock : Block := .mk
  { id := "rpc-2", type := "condition",
    properties := some { conditionType := some "rpc", method := some "eth_getBalance" } }
  [({ id := "chain", label := "Chain", value := some "137" }, none),
   ({ id := "minBalance", label := "Min Balance", value := some "1" }, none)]

/-! ## Basic lemmas about the embedding -/

/-- Unfolding of `V1.blockToJson` on a constructed block. -/
theorem V1.blockToJson_mk (d : BlockData) (inputs : List (SlotData × Option Block)) :
    V1.blockToJson (.mk d inputs) =
      if d.type == "operator" then
        let operands := (V1.compileEach (inputs.filterMap Prod.snd)).reduceOption
        if operands.length == 0 then none
        else some (.compound (jsOr (d.properties.bind Props.operator) "and") operands)
      else if d.type == "condition" then V1.conditionToJson d inputs
      else none := by
  simp [V1.blockToJson]

/-- `V1.compileEach` is `List.map V1.blockToJson`. -/
theorem V1.compileEach_eq_map (l : List Block) :
    V1.compileEach l = l.map V1.blockToJson := by
  induction l with
  | nil => simp [V1.compileEach]
  | cons b rest ih => simp [V1.compileEach, ih]

/-- Unfolding of `V2.processBlock` on a constructed block. -/
theorem V2.processBlock_mk (d : BlockData) (inputs : List (SlotData × Option Block)) :
    V2.processBlock (.mk d inputs) =
      match d.properties with
      | none => none
      | some props =>
        if d.type == "operator" then
          some (.compound (jsOr props.operator "and")
            ((V2.processEach (inputs.filterMap Prod.snd)).reduceOption))
        else V2.processConditionBlock props inputs := by
  simp [V2.processBlock]

/-- `V2.processEach` is `List.map V2.processBlock`. -/
theorem V2.processEach_eq_map (l : List Block) :
    V2.processEach l = l.map V2.processBlock := by
  induction l with
  | nil => simp [V2.processEach]
  | cons b rest ih => simp [V2.processEach, ih]

/-- Characterization of a successful `updateFirst`: the list splits at the
first match, and only that element is rewritten. -/
theorem updateFirst_eq_some {p : α → Bool} {f : α → α} {l l' : List α}
    (h : updateFirst p f l = some l') :
    ∃ pre x post, l = pre ++ x :: post ∧ (∀ y ∈ pre, p y = false) ∧ p x = true ∧
      l' = pre ++ f x :: post := by
  induction l generalizing l' with
  | nil => simp [updateFirst] at h
  | cons a as ih =>
    by_cases hp : p a = true
    · refine ⟨[], a, as, by simp, by simp, hp, ?_⟩
      simpa [updateFirst, hp] using h.symm
    · simp only [updateFirst, Bool.not_eq_true] at h hp
      rw [hp] at h
      simp only [Bool.false_eq_true, if_false, Option.map_eq_some'] at h
      obtain ⟨as', has', rfl⟩ := h
      obtain ⟨pre, x, post, rfl, hpre, hx, rfl⟩ := ih has'
      refine ⟨a :: pre, x, post, by simp, ?_, hx, by simp⟩
      intro y hy
      rcases List.mem_cons.mp hy with rfl | hy'
      · exact hp
      · exact hpre y hy'

/-- `updateFirst` on a list whose first match is explicitly located. -/
theorem updateFirst_append {p : α → Bool} {f : α → α} {pre : List α} {x : α}
    (post : List α) (hpre : ∀ y ∈ pre, p y = false) (hx : p x = true) :
    updateFirst p f (pre ++ x :: post) = some (pre ++ f x :: post) := by
  induction pre with
  | nil => simp [updateFirst, hx]
  | cons a as ih =>
    have ha : p a = false := hpre a (by simp)
    simp only [List.cons_append, updateFirst, ha, Bool.false_eq_true, if_false, List.append_eq]
    rw [ih (fun y hy => hpre y (by simp [hy]))]
    rfl

/-- `find?` on a list whose first match is explicitly located. -/
theorem find?_append_first {p : α → Bool} {pre : List α} {x : α} (post : List α)
    (hpre : ∀ y ∈ pre, p y = false) (hx : p x = true) :
    (pre ++ x :: post).find? p = some x := by
  induction pre with
  | nil => simp [List.find?_cons, hx]
  | cons a as ih =>
    have ha : p a = false := hpre a (by simp)
    simp only [List.cons_append, List.find?_cons, ha]
    exact ih (fun y hy => hpre y (by simp [hy]))

/-! ## Claim C4: the `time` condition compilation -/

/-- `processInput` on a `chain` slot with no connected child: a truthy value
parsing into the allowed chain set records the chain; anything else leaves
the builder unchanged. -/
theorem V2.processInput_chain_slot (props : Props) (b : V2.ConditionBuilder)
    (s : SlotData) (hid : s.id = "chain") :
    V2.processInput props b (s, (none : Option Block)) =
      match (if strTruthy s.value then jsParseInt (s.value.getD "") else none) with
      | some ch => if isValidChainId ch then { b with chain := some ch } else b
      | none => b := by
  cases hv : s.value with
  | none => simp [V2.processInput, V2.effectiveValue, hv, strTruthy]
  | some v =>
    by_cases hve : v = ""
    · subst hve
      simp [V2.processInput, V2.effectiveValue, hv, strTruthy]
    · have hvs : strTruthy (some v) = true := by simp [strTruthy, hve]
      have hbne : (v == "") = false := by simp [hve]
      cases hjp : jsParseInt v with
      | none => simp [V2.processInput, V2.effectiveValue, hv, hvs, hbne, hid, hjp]
      | some ch => simp [V2.processInput, V2.effectiveValue, hv, hvs, hbne, hid, hjp]

/-- `processInput` on a `minTimestamp` slot with no connected child: a truthy
value parsing as an integer switches the builder to a `time` condition with
the hard-coded comparator `">="`; anything else leaves it unchanged. -/
theorem V2.processInput_ts_slot (props : Props) (b : V2.ConditionBuilder)
    (s : SlotData) (hid : s.id = "minTimestamp") :
    V2.processInput props b (s, (none : Option Block)) =
      match (if strTruthy s.value then jsParseInt (s.value.getD "") else none) with
      | some ts =>
        { b with
          conditionType := some "time",
          method := some "blocktime",
          returnValueTest := some (RVT.mk ">=" (.num (ts : Rat))) }
      | none => b := by
  cases hv : s.value with
  | none => simp [V2.processInput, V2.effectiveValue, hv, strTruthy]
  | some v =>
    by_cases hve : v = ""
    · subst hve
      simp [V2.processInput, V2.effectiveValue, hv, strTruthy]
    · have hvs : strTruthy (some v) = true := by simp [strTruthy, hve]
      have hbne : (v == "") = false := by simp [hve]
      cases hjp : jsParseInt v with
      | none => simp [V2.processInput, V2.effectiveValue, hv, hvs, hbne, hid, hjp]
      | some ts => simp [V2.processInput, V2.effectiveValue, hv, hvs, hbne, hid, hjp]

/-- C4 (amended): For every condition Block with conditionType `"time"`:
under the first compiler variant (`blockToJson`) the compiled
`TimeCondition` has the fixed method `"blocktime"`, chain parsed from the
`chain` slot with the Sepolia default `11155111` on an absent or invalid
value, and returnValueTest `{slot comparator or ">=", parseInt(slot value)}`
from a non-empty `minTimestamp` slot, `{">=", 0}` otherwise.  Under the
second variant (`processBlock`, on the canonical `chain` + `minTimestamp`
slot shape, with the `method` property not `eth_getBalance`) the block
compiles to a `TimeCondition` only when the `minTimestamp` value parses as
an integer and the `chain` value parses into the allowed set — there is no
Sepolia fallback and no default test, the block otherwise compiling to
absent — and the emitted comparator is always the hard-coded `">="`,
ignoring the slot comparator. -/
theorem c4_time_condition (d : BlockData)
    (hty : d.type = "condition")
    (hct : d.properties.bind Props.conditionType = some "time") :
    (∀ inputs : List (SlotData × Option Block),
      V1.blockToJson (.mk d inputs) = some (.time
        (match inputs.find? (fun input => input.1.id == "chain") with
         | some chainInput =>
           if strTruthy chainInput.1.value then
             match jsParseInt (chainInput.1.value.getD "") with
             | some n => if n ∈ ([1, 137, 80002, 11155111] : List Int) then n else 11155111
             | none => 11155111
           else 11155111
         | none => 11155111)
        "blocktime"
        (match inputs.find? (fun input => input.1.id == "minTimestamp") with
         | some timestampInput =>
           if strTruthy timestampInput.1.value then
             { comparator := jsOr timestampInput.1.comparator ">=",
               value := jvalOfParseInt (timestampInput.1.value.getD "") }
           else { comparator := ">=", value := .num 0 }
         | none => { comparator := ">=", value := .num 0 }))) ∧
    (∀ cSlot tSlot : SlotData, cSlot.id = "chain" → tSlot.id = "minTimestamp" →
      d.properties.bind Props.method ≠ some "eth_getBalance" →
      V2.processBlock (.mk d [(cSlot, none), (tSlot, none)]) =
        match (if strTruthy tSlot.value then jsParseInt (tSlot.value.getD "") else none),
              (if strTruthy cSlot.value then jsParseInt (cSlot.value.getD "") else none) with
        | some ts, some ch =>
          if isValidChainId ch then
            some (.time ch "blocktime" { comparator := ">=", value := .num (ts : Rat) })
          else none
        | some _, none => none
        | none, _ => none) := by
  constructor
  · intro inputs
    rw [V1.blockToJson_mk]
    simp only [hty]
    rw [show (("condition" : String) == "operator") = false from rfl]
    rw [show (("condition" : String) == "condition") = true from rfl]
    simp only [Bool.false_eq_true, if_false, if_true, V1.conditionToJson, hct]
    simp only [V1.timeCondition, parseChainId, isValidChainId]
    congr 1
    congr 1
    · cases hfind : inputs.find? (fun input => input.1.id == "chain") with
      | none => rfl
      | some chainInput =>
        by_cases hv : strTruthy chainInput.1.value
        · simp only [hv, if_true]
          cases hp : jsParseInt (chainInput.1.value.getD "") with
          | none => rfl
          | some n =>
            by_cases hmem : n ∈ ([1, 137, 80002, 11155111] : List Int)
            · simp [List.elem_iff, hmem]
            · simp [List.elem_iff, hmem]
        · simp [hv]
  · intro cSlot tSlot hcid htid hm
    cases hp : d.properties with
    | none => simp [hp] at hct
    | some props =>
      have hctp : props.conditionType = some "time" := by
        have := hct
        rw [hp] at this
        simpa using this
      have hmeth : (props.method == some "eth_getBalance") = false := by
        cases hpm : props.method with
        | none => rfl
        | some m =>
          by_cases hEq : m = "eth_getBalance"
          · exact absurd (by simp [hp, hpm, hEq]) hm
          · simp [hEq]
      have hcontractF : (props.conditionType == some "contract") = false := by
        rw [hctp]; rfl
      rw [V2.processBlock_mk, hp]
      dsimp only
      rw [hty]
      rw [show (("condition" : String) == "operator") = false from rfl]
      simp only [Bool.false_eq_true, if_false]
      unfold V2.processConditionBlock
      simp only [List.foldl_cons, List.foldl_nil]
      rw [V2.processInput_chain_slot props {} cSlot hcid]
      rw [V2.processInput_ts_slot props _ tSlot htid]
      cases htv : (if strTruthy tSlot.value then jsParseInt (tSlot.value.getD "") else none) with
      | none =>
        cases hcv : (if strTruthy cSlot.value then jsParseInt (cSlot.value.getD "") else none) with
        | none => simp [V2.dispatchBuilder, hmeth, hcontractF]
        | some ch =>
          by_cases hval : isValidChainId ch
          · simp [hval, V2.dispatchBuilder, hmeth, hcontractF]
          · simp [hval, V2.dispatchBuilder, hmeth, hcontractF]
      | some ts =>
        cases hcv : (if strTruthy cSlot.value then jsParseInt (cSlot.value.getD "") else none) with
        | none => simp [V2.dispatchBuilder, hmeth, hcontractF]
        | some ch =>
          by_cases hval : isValidChainId ch
          · simp [hval, V2.dispatchBuilder, hmeth, hcontractF]
          · simp [hval, V2.dispatchBuilder, hmeth, hcontractF]

/-- C4 counterexample: under the second compiler variant (`processBlock`,
cited by the claim alongside `blockToJson`) the original claim fails: the
`minTimestamp` slot's explicit comparator `">"` is ignored — the emitted
comparator is the hard-coded `">="` — and a `time` block whose chain slot
holds the invalid value `"999"` compiles to absent instead of falling back
to the Sepolia default `11155111`. -/
theorem c4_time_condition_counterexample :
    ((timeCompGtBlock.inputs.find? (fun input => input.1.id == "minTimestamp")).map
        (fun input => input.1.comparator)) = some (some ">") ∧
    V2.processBlock timeCompGtBlock =
      some (.time 11155111 "blocktime" { comparator := ">=", value := .num 1700000000 }) ∧
    (">=" : String) ≠ ">" ∧
    V2.processBlock timeChain999Block = none := by
  refine ⟨rfl, ?_, by decide, ?_⟩
  · simp only [timeCompGtBlock]
    rw [V2.processBlock_mk]
    rfl
  · simp only [timeChain999Block]
    rw [V2.processBlock_mk]
    rfl

/-- C4 witness (spec Scenario A): the concrete `time` block with
`chain = "11155111"` and `minTimestamp = {"1700000000", ">="}` compiles
under both variants to
`{time, 11155111, blocktime, {">=", 1700000000}}`. -/
theorem c4_time_condition_witness :
    timeBlockData.type = "condition" ∧
    timeBlockData.properties.bind Props.conditionType = some "time" ∧
    timeBlockData.properties.bind Props.method ≠ some "eth_getBalance" ∧
    V1.blockToJson (.mk timeBlockData timeBlockInputs) =
      some (.time 11155111 "blocktime" { comparator := ">=", value := .num 1700000000 }) ∧
    V2.processBlock timeBlockOne =
      some (.time 11155111 "blocktime" { comparator := ">=", value := .num 1700000000 }) := by
  have hm : timeBlockData.properties.bind Props.method ≠ some "eth_getBalance" := by decide
  have h := c4_time_condition timeBlockData rfl rfl
  refine ⟨rfl, rfl, hm, ?_, ?_⟩
  · rw [h.1 timeBlockInputs]
    rfl
  · have hv2 := h.2 ({ id := "chain", label := "Chain", value := some "11155111" })
      ({ id := "minTimestamp", label := "Min Timestamp", value := some "1700000000",
         comparator := some ">=" }) rfl rfl hm
    simp only [timeBlockOne, timeBlockInputs]
    rw [hv2]
    rfl

/-! ## Claim C1: `rpc` / `eth_getBalance` parameters -/

/-- C1 (amended): In the second compiler variant, every emitted
`RpcCondition` has parameters exactly `[":userAddress", "latest"]`,
regardless of any `parameters` input or property.  In the first compiler
variant this only holds when the block's properties carry no truthy
`parameters` entry: a truthy `properties.parameters` value is emitted
verbatim instead. -/
theorem c1_rpc_parameters :
    (∀ (b : Block) (chain : Int) (method : String) (ps : JVal) (rvt : RVT),
      V2.processBlock b = some (.rpc chain method ps rvt) →
      ps = .arr [.str ":userAddress", .str "latest"]) ∧
    (∀ (d : BlockData) (inputs : List (SlotData × Option Block))
       (chain : Int) (method : String) (ps : JVal) (rvt : RVT),
      V1.blockToJson (.mk d inputs) = some (.rpc chain method ps rvt) →
      ps = .arr [.str ":userAddress", .str "latest"] ∨
      (∃ pv, d.properties.bind Props.parameters = some pv ∧ jvalTruthy pv = true ∧ ps = pv)) := by
  constructor
  · intro b chain method ps rvt h
    obtain ⟨d, inputs⟩ := b
    rw [V2.processBlock_mk] at h
    cases hp : d.properties with
    | none => rw [hp] at h; simp at h
    | some props =>
      rw [hp] at h
      by_cases hop : (d.type == "operator") = true
      · simp only [hop, if_true] at h
        simp at h
      · simp only [hop, Bool.false_eq_true, if_false] at h
        unfold V2.processConditionBlock V2.dispatchBuilder at h
        split at h
        · simp at h
          exact h.2.2.1.symm
        · split at h
          · simp at h
          · split at h
            · simp at h
            · simp at h
  · intro d inputs chain method ps rvt h
    rw [V1.blockToJson_mk] at h
    by_cases hop : (d.type == "operator") = true
    · simp only [hop, if_true] at h
      split at h
      · simp at h
      · simp at h
    · by_cases hcond : (d.type == "condition") = true
      · simp only [hop, hcond, Bool.false_eq_true, if_false, if_true] at h
        unfold V1.conditionToJson at h
        split at h
        · simp only [V1.timeCondition] at h
          simp at h
        · simp only [V1.rpcCondition] at h
          simp only [Option.some.injEq, Cond.rpc.injEq] at h
          obtain ⟨-, -, hps, -⟩ := h
          cases hpv : d.properties.bind Props.parameters with
          | none => rw [hpv] at hps; dsimp only at hps; exact .inl hps.symm
          | some pv =>
            rw [hpv] at hps
            dsimp only at hps
            by_cases htruthy : jvalTruthy pv = true
            · rw [if_pos htruthy] at hps
              exact .inr ⟨pv, rfl, htruthy, hps.symm⟩
            · rw [if_neg htruthy] at hps
              exact .inl hps.symm
        · simp only [V1.contractCondition] at h
          simp at h
        · simp at h
      · simp [hop, hcond] at h

/-- C1 counterexample: the concrete `rpc` / `eth_getBalance` block whose
properties carry `parameters: ["bogus"]` compiles (first variant) to an
`RpcCondition` whose parameters are `["bogus"]`, not
`[":userAddress", "latest"]` — so the emitted parameters do depend on the
Block's `parameters` property, contrary to the claim. -/
theorem c1_rpc_parameters_counterexample :
    V1.blockToJson rpcParamsBlock =
      some (.rpc 137 "eth_getBalance" (.arr [.str "bogus"])
        { comparator := ">=", value := .str "0" }) ∧
    JVal.arr [.str "bogus"] ≠ JVal.arr [.str ":userAddress", .str "latest"] := by
  constructor
  · simp only [rpcParamsBlock]
    rw [V1.blockToJson_mk]
    rfl
  · intro h
    simp at h

/-- C1 witness: the theorem applied to a concrete `eth_getBalance` block of
the second compiler variant yields the fixed parameters. -/
theorem c1_rpc_parameters_witness :
    V2.processBlock ethBalanceBlock =
      some (.rpc 137 "eth_getBalance" (.arr [.str ":userAddress", .str "latest"])
        { comparator := ">=", value := .num 1 }) ∧
    JVal.arr [.str ":userAddress", .str "latest"] = .arr [.str ":userAddress", .str "latest"] := by
  have hcomp : V2.processBlock ethBalanceBlock =
      some (.rpc 137 "eth_getBalance" (.arr [.str ":userAddress", .str "latest"])
        { comparator := ">=", value := .num 1 }) := by
    simp only [ethBalanceBlock]
    rw [V2.processBlock_mk]
    rfl
  exact ⟨hcomp, c1_rpc_parameters.1 ethBalanceBlock 137 "eth_getBalance" _ _ hcomp⟩

/-! ## Claim C2: invalid chain values -/

/-- C2 (amended): Compilation never fails on an invalid chain slot value:
the first compiler variant's `parseChainId` silently substitutes the
default Sepolia chain `11155111` for any value that does not parse to a
member of `{1, 137, 80002, 11155111}`.  The throw-with-enumeration policy
exists only in the encryption panel's `getValidChainId`, which raises
`Invalid chain ID. Must be one of: 137, 80002, 11155111, 1` when handed a
chain number outside the set. -/
theorem c2_invalid_chain_policy :
    (∀ (s : String) (n : Int), jsParseInt s = some n →
      n ∉ ([1, 137, 80002, 11155111] : List Int) → parseChainId s = 11155111) ∧
    (∀ s : String, jsParseInt s = none → parseChainId s = 11155111) ∧
    (∀ n : Int, n ∉ ([137, 80002, 11155111, 1] : List Int) →
      getValidChainId n =
        .error "Invalid chain ID. Must be one of: 137, 80002, 11155111, 1") := by
  refine ⟨?_, ?_, ?_⟩
  · intro s n hparse hmem
    unfold parseChainId
    rw [hparse]
    simp [isValidChainId, List.elem_iff, hmem]
  · intro s hparse
    unfold parseChainId
    rw [hparse]
  · intro n hmem
    simp only [List.mem_cons, List.not_mem_nil, or_false, not_or] at hmem
    obtain ⟨h1, h2, h3, h4⟩ := hmem
    have e1 : ((137 : Int) == n) = false := beq_eq_false_iff_ne.mpr (Ne.symm h1)
    have e2 : ((80002 : Int) == n) = false := beq_eq_false_iff_ne.mpr (Ne.symm h2)
    have e3 : ((11155111 : Int) == n) = false := beq_eq_false_iff_ne.mpr (Ne.symm h3)
    have e4 : ((1 : Int) == n) = false := beq_eq_false_iff_ne.mpr (Ne.symm h4)
    simp [getValidChainId, List.find?, e1, e2, e3, e4]
    rfl

/-- C2 counterexample: the concrete `time` block whose chain slot holds
`"999"` (not in the allowed set) compiles successfully to a condition with
the silently substituted default chain `11155111` — the compiler has no
error channel at all, so no error enumerating the valid set is raised,
contrary to the claim. -/
theorem c2_invalid_chain_counterexample :
    V1.blockToJson chain999Block =
      some (.time 11155111 "blocktime" { comparator := ">=", value := .num 0 }) ∧
    (999 : Int) ∉ ([1, 137, 80002, 11155111] : List Int) := by
  constructor
  · simp only [chain999Block]
    rw [V1.blockToJson_mk]
    rfl
  · decide

/-- C2 witness: the amended policy applied at the concrete value `"999"`. -/
theorem c2_invalid_chain_witness :
    jsParseInt "999" = some 999 ∧
    (999 : Int) ∉ ([1, 137, 80002, 11155111] : List Int) ∧
    parseChainId "999" = 11155111 ∧
    getValidChainId 999 =
      .error "Invalid chain ID. Must be one of: 137, 80002, 11155111, 1" :=
  ⟨rfl, by decide, c2_invalid_chain_policy.1 "999" 999 rfl (by decide),
   c2_invalid_chain_policy.2.2 999 (by decide)⟩

/-! ## Claim C3: `contract` blocks without a method -/

/-- Helper: an input whose id is none of `method` / `timestamp` /
`minTimestamp` cannot set the builder's `method` or `conditionType`. -/
theorem processInput_method_invariant (props : Props) (builder : V2.ConditionBuilder)
    (input : SlotData × Option Block)
    (hid : input.1.id ≠ "method" ∧ input.1.id ≠ "timestamp" ∧ input.1.id ≠ "minTimestamp")
    (hm : builder.method = none) (hct : builder.conditionType = none) :
    (V2.processInput props builder input).method = none ∧
    (V2.processInput props builder input).conditionType = none := by
  obtain ⟨hid1, hid2, hid3⟩ := hid
  have e1 : (input.1.id == "method") = false := beq_eq_false_iff_ne.mpr hid1
  have e2 : (input.1.id == "timestamp") = false := beq_eq_false_iff_ne.mpr hid2
  have e3 : (input.1.id == "minTimestamp") = false := beq_eq_false_iff_ne.mpr hid3
  unfold V2.processInput
  cases heff : V2.effectiveValue input with
  | none => exact ⟨hm, hct⟩
  | some v =>
    simp only [e1, e2, e3, Bool.false_or, Bool.or_false, Bool.false_eq_true, if_false]
    constructor
    · repeat' split
      all_goals simp_all
    · repeat' split
      all_goals simp_all

/-- Helper: folding the builder over inputs that contain no
`method` / `timestamp` / `minTimestamp` slot leaves `method` and
`conditionType` unset. -/
theorem foldl_method_invariant (props : Props) (inputs : List (SlotData × Option Block))
    (builder : V2.ConditionBuilder)
    (h : ∀ input ∈ inputs, input.1.id ≠ "method" ∧ input.1.id ≠ "timestamp" ∧
      input.1.id ≠ "minTimestamp")
    (hm : builder.method = none) (hct : builder.conditionType = none) :
    (inputs.foldl (V2.processInput props) builder).method = none ∧
    (inputs.foldl (V2.processInput props) builder).conditionType = none := by
  induction inputs generalizing builder with
  | nil => exact ⟨hm, hct⟩
  | cons input rest ih =>
    simp only [List.foldl_cons]
    obtain ⟨hm', hct'⟩ :=
      processInput_method_invariant props builder input (h input (by simp)) hm hct
    exact ih _ (fun i hi => h i (List.mem_cons_of_mem _ hi)) hm' hct'

/-- C3 (amended): Under the second compiler variant, a condition Block with
conditionType `"contract"`, no `method` entry in its properties, and no
`method` / `timestamp` / `minTimestamp` input, compiles to absent (`null`),
and a compound ancestor drops that operand: removing the connected child
from any operator block leaves the compiled result unchanged.  (Under the
first compiler variant the claim fails: a missing method is replaced by the
guessed default `balanceOf` — see the counterexample.) -/
theorem c3_contract_missing_method :
    ∀ (d : BlockData) (inputs : List (SlotData × Option Block)) (props : Props),
      d.type = "condition" →
      d.properties = some props →
      props.method = none →
      (∀ input ∈ inputs, input.1.id ≠ "method" ∧ input.1.id ≠ "timestamp" ∧
        input.1.id ≠ "minTimestamp") →
      V2.processBlock (.mk d inputs) = none ∧
      (∀ (od : BlockData) (pre post : List (SlotData × Option Block)) (slot : SlotData),
        od.type = "operator" →
        V2.processBlock (.mk od (pre ++ (slot, some (.mk d inputs)) :: post)) =
          V2.processBlock (.mk od (pre ++ post))) := by
  intro d inputs props hty hp hmeth hids
  have habsent : V2.processBlock (.mk d inputs) = none := by
    rw [V2.processBlock_mk, hp]
    have hop : (d.type == "operator") = false := by rw [hty]; rfl
    simp only [hop, Bool.false_eq_true, if_false]
    unfold V2.processConditionBlock V2.dispatchBuilder
    obtain ⟨hm, hct⟩ := foldl_method_invariant props inputs {} hids rfl rfl
    simp [hmeth, hm, hct, strTruthy]
  refine ⟨habsent, ?_⟩
  intro od pre post slot hodty
  rw [V2.processBlock_mk, V2.processBlock_mk]
  cases hodp : od.properties with
  | none => rfl
  | some oprops =>
    have hop : (od.type == "operator") = true := by rw [hodty]; rfl
    simp only [hop, if_true]
    rw [List.filterMap_append, List.filterMap_append]
    simp only [List.filterMap_cons]
    rw [V2.processEach_eq_map, V2.processEach_eq_map]
    simp only [List.map_append, List.map_cons, Prod.snd]
    rw [habsent]
    rw [List.reduceOption_append, List.reduceOption_append, List.reduceOption_cons_of_none]

/-- C3 counterexample: the concrete `contract` block with no `method`
entry compiles (first variant) to a `ContractCondition` carrying the
guessed default method `balanceOf` — it is emitted, not absent, contrary
to the claim. -/
theorem c3_contract_missing_method_counterexample :
    contractNoMethodData.properties.bind Props.method = none ∧
    V1.blockToJson contractNoMethodBlock =
      some (.contract 137 "" "balanceOf" (.arr [.str ":userAddress"]) none
        { comparator := ">=", value := .str "0" }) := by
  refine ⟨rfl, ?_⟩
  simp only [contractNoMethodBlock, contractNoMethodData, contractNoMethodInputs]
  rw [V1.blockToJson_mk]
  rfl

/-- C3 witness: the amended theorem applied to the concrete method-less
contract block, alone and as an operand of an `and` operator. -/
theorem c3_contract_missing_method_witness :
    V2.processBlock contractNoMethodBlock = none ∧
    V2.processBlock (.mk emptyAndBlock.data
      (({ id := "slotA", label := "Condition 1", types := ["condition", "operator"] },
        some (Block.mk contractNoMethodData contractNoMethodInputs)) :: emptyAndBlock.inputs)) =
      V2.processBlock (.mk emptyAndBlock.data emptyAndBlock.inputs) := by
  have h := c3_contract_missing_method contractNoMethodData contractNoMethodInputs
    { conditionType := some "contract" } rfl rfl rfl (by decide)
  refine ⟨h.1, ?_⟩
  have h2 := h.2 emptyAndBlock.data []
    emptyAndBlock.inputs
    { id := "slotA", label := "Condition 1", types := ["condition", "operator"] } rfl
  simpa using h2

/-! ## Claim C5: operators with zero connected operands -/

/-- Helper: mapping a function that yields `none` on every element reduces
to the empty list. -/
theorem reduceOption_map_none {f : α → Option β} {l : List α}
    (h : ∀ c ∈ l, f c = none) : (l.map f).reduceOption = [] := by
  induction l with
  | nil => rfl
  | cons c rest ih =>
    simp only [List.map_cons, h c (by simp), List.reduceOption_cons_of_none]
    exact ih (fun x hx => h x (List.mem_cons_of_mem _ hx))

/-- C5 (amended): Under the first compiler variant, an operator Block all of
whose connected children compile to absent (in particular one with zero
connected operands) compiles to absent, at any nesting depth including the
root (the compiler is compositional in the block).  Under the second
compiler variant such an operator instead compiles to a CompoundCondition
with an empty operand list — see the counterexample. -/
theorem c5_empty_operator :
    (∀ (d : BlockData) (inputs : List (SlotData × Option Block)),
      d.type = "operator" →
      (∀ c ∈ inputs.filterMap Prod.snd, V1.blockToJson c = none) →
      V1.blockToJson (.mk d inputs) = none) ∧
    (∀ (d : BlockData) (inputs : List (SlotData × Option Block)) (props : Props),
      d.type = "operator" → d.properties = some props →
      (∀ c ∈ inputs.filterMap Prod.snd, V2.processBlock c = none) →
      V2.processBlock (.mk d inputs) = some (.compound (jsOr props.operator "and") [])) := by
  constructor
  · intro d inputs hty hchildren
    rw [V1.blockToJson_mk]
    have hop : (d.type == "operator") = true := by rw [hty]; rfl
    simp only [hop, if_true, V1.compileEach_eq_map, reduceOption_map_none hchildren]
    rfl
  · intro d inputs props hty hp hchildren
    rw [V2.processBlock_mk, hp]
    have hop : (d.type == "operator") = true := by rw [hty]; rfl
    simp only [hop, if_true, V2.processEach_eq_map, reduceOption_map_none hchildren]

/-- C5 counterexample: a concrete `and` operator block with zero connected
operands, compiled at the root by the second compiler variant, yields a
CompoundCondition with an empty operand list — not absent, contrary to the
claim. -/
theorem c5_empty_operator_counterexample :
    V2.blocksToJson [emptyAndBlock] = some (.compound "and" []) ∧
    V2.blocksToJson [emptyAndBlock] ≠ none := by
  have h : V2.blocksToJson [emptyAndBlock] = some (.compound "and" []) := by
    simp [V2.blocksToJson, V2.topLevelBlocks, emptyAndBlock, emptyAndData, emptyAndInputs,
      V2.processBlock, V2.processEach, V2.isConnectedIn, Block.id, Block.inputs, Block.data, jsOr]
  exact ⟨h, by simp [h]⟩

/-- C5 witness: the amended theorem applied to the concrete empty `and`
operator block, for both compiler variants. -/
theorem c5_empty_operator_witness :
    V1.blockToJson (.mk emptyAndData emptyAndInputs) = none ∧
    V2.processBlock (.mk emptyAndData emptyAndInputs) = some (.compound "and" []) := by
  constructor
  · exact c5_empty_operator.1 emptyAndData emptyAndInputs rfl (by simp [emptyAndInputs])
  · exact c5_empty_operator.2 emptyAndData emptyAndInputs { operator := some "and" }
      rfl rfl (by simp [emptyAndInputs])

/-! ## Claim C10: combination of multiple top-level blocks -/

/-- Helper: `.map f` then dropping `none`s is `filterMap f`. -/
theorem reduceOption_map_eq_filterMap (f : α → Option β) (l : List α) :
    (l.map f).reduceOption = l.filterMap f := by
  induction l with
  | nil => rfl
  | cons a rest ih =>
    cases ha : f a with
    | none => simp [List.reduceOption_cons_of_none, ha, ih, List.filterMap_cons]
    | some b => simp [List.reduceOption_cons_of_some, ha, ih, List.filterMap_cons]

/-- C10: In the second compiler variant, when the workspace has two or more
top-level blocks, each is compiled independently and absent results are
dropped; if zero compiled conditions remain the result is absent, if
exactly one remains it is returned directly with no wrapper, and if two or
more remain the result is a CompoundCondition with operator `"and"` whose
operands are those conditions in the top-level blocks' original order. -/
theorem c10_top_level_combination (blocks : List Block)
    (h2 : 2 ≤ (V2.topLevelBlocks blocks).length) :
    ((V2.topLevelBlocks blocks).filterMap V2.processBlock = [] →
      V2.blocksToJson blocks = none) ∧
    (∀ c, (V2.topLevelBlocks blocks).filterMap V2.processBlock = [c] →
      V2.blocksToJson blocks = some c) ∧
    (2 ≤ ((V2.topLevelBlocks blocks).filterMap V2.processBlock).length →
      V2.blocksToJson blocks = some (.compound "and"
        ((V2.topLevelBlocks blocks).filterMap V2.processBlock))) := by
  have hlen0 : ((V2.topLevelBlocks blocks).length == 0) = false := by
    simp only [beq_eq_false_iff_ne]
    omega
  have hlen1 : ((V2.topLevelBlocks blocks).length == 1) = false := by
    simp only [beq_eq_false_iff_ne]
    omega
  have hred : (V2.processEach (V2.topLevelBlocks blocks)).reduceOption =
      (V2.topLevelBlocks blocks).filterMap V2.processBlock := by
    rw [V2.processEach_eq_map, reduceOption_map_eq_filterMap]
  unfold V2.blocksToJson
  simp only [hlen0, hlen1, Bool.false_eq_true, if_false, hred]
  refine ⟨?_, ?_, ?_⟩
  · intro hnil
    simp [hnil]
  · intro c hone
    simp [hone]
  · intro hmany
    have l0 : (((V2.topLevelBlocks blocks).filterMap V2.processBlock).length == 0) = false := by
      simp only [beq_eq_false_iff_ne]
      omega
    have l1 : (((V2.topLevelBlocks blocks).filterMap V2.processBlock).length == 1) = false := by
      simp only [beq_eq_false_iff_ne]
      omega
    simp [l0, l1]

/-- C10 witness: two concrete top-level condition blocks are combined into
a compound `and` with both compiled conditions in order. -/
theorem c10_top_level_combination_witness :
    2 ≤ (V2.topLevelBlocks [timeBlockOne, timeBlockTwo]).length ∧
    V2.blocksToJson [timeBlockOne, timeBlockTwo] =
      some (.compound "and"
        [.time 11155111 "blocktime" { comparator := ">=", value := .num 1700000000 },
         .time 1 "blocktime" { comparator := ">=", value := .num 5 }]) := by
  have htl : V2.topLevelBlocks [timeBlockOne, timeBlockTwo] = [timeBlockOne, timeBlockTwo] := rfl
  have h2 : 2 ≤ (V2.topLevelBlocks [timeBlockOne, timeBlockTwo]).length := by rw [htl]; rfl
  have hb1 : V2.processBlock timeBlockOne =
      some (.time 11155111 "blocktime" { comparator := ">=", value := .num 1700000000 }) := by
    show V2.processBlock (.mk timeBlockData timeBlockInputs) = _
    rw [V2.processBlock_mk]
    rfl
  have hb2 : V2.processBlock timeBlockTwo =
      some (.time 1 "blocktime" { comparator := ">=", value := .num 5 }) := by
    simp only [timeBlockTwo]
    rw [V2.processBlock_mk]
    rfl
  have hfm : (V2.topLevelBlocks [timeBlockOne, timeBlockTwo]).filterMap V2.processBlock =
      [.time 11155111 "blocktime" { comparator := ">=", value := .num 1700000000 },
       .time 1 "blocktime" { comparator := ">=", value := .num 5 }] := by
    rw [htl]
    simp [List.filterMap_cons, hb1, hb2]
  have h3 := (c10_top_level_combination [timeBlockOne, timeBlockTwo] h2).2.2
  rw [hfm] at h3
  exact ⟨h2, h3 (by simp)⟩

/-! ## Claim C6: the growth invariant on attach -/

/-- Helper: a slot list ending in a connected slot followed by one empty
growth slot has exactly one trailing empty slot. -/
theorem trailingEmptyCount_concat_growth
    (pre : List (SlotData × Option Block)) (s : SlotData) (c : Block) (g : SlotData) :
    trailingEmptyCount ((pre ++ [(s, some c)]) ++ [(g, none)]) = 1 := by
  simp [trailingEmptyCount, List.reverse_append, List.takeWhile_cons]

/-- C6 (amended): After an attach of a block into an operator Block's last
slot, the operator has exactly one empty trailing slot, unless `maxInputs`
holds a nonzero bound already reached by the count of connected slots
(counted after the attach), in which case no new empty slot is appended and
the input list keeps its length.  A `maxInputs` of `0` is treated by the
code as "no bound" (JS falsiness), not as a reached bound — see the
counterexample.  The same invariant holds on the nested drop path
(`nestedAttachChild`). -/
theorem c6_growth_invariant :
    (∀ (d : BlockData) (pre : List (SlotData × Option Block))
       (lastSlot : SlotData × Option Block) (item : Block) (freshId : String) (b' : Block),
      d.type = "operator" →
      (∀ q ∈ pre, (q.1.id == lastSlot.1.id) = false) →
      attachIntoOperator (.mk d (pre ++ [lastSlot])) lastSlot.1.id item freshId = some b' →
      (growthBoundOk ((d.properties.map Props.maxInputs).join)
          ((pre.filter (fun q => q.2.isSome)).length + 1) = true →
        trailingEmptyCount b'.inputs = 1) ∧
      (growthBoundOk ((d.properties.map Props.maxInputs).join)
          ((pre.filter (fun q => q.2.isSome)).length + 1) = false →
        b'.inputs.length = pre.length + 1)) ∧
    (∀ (d : BlockData) (pre : List (SlotData × Option Block))
       (lastSlot : SlotData × Option Block) (item : Block) (freshId : String) (b' : Block),
      d.type = "operator" →
      (∀ q ∈ pre, (q.1.id == lastSlot.1.id) = false) →
      nestedAttachChild (.mk d (pre ++ [lastSlot])) lastSlot.1.id item freshId = some b' →
      (growthBoundOk ((d.properties.map Props.maxInputs).join)
          ((pre.filter (fun q => q.2.isSome)).length + 1) = true →
        trailingEmptyCount b'.inputs = 1) ∧
      (growthBoundOk ((d.properties.map Props.maxInputs).join)
          ((pre.filter (fun q => q.2.isSome)).length + 1) = false →
        b'.inputs.length = pre.length + 1)) := by
  constructor
  · intro d pre lastSlot item freshId b' hty hpre hatt
    unfold attachIntoOperator at hatt
    simp only [Block.inputs, Block.data] at hatt
    rw [updateFirst_append [] hpre (by simp)] at hatt
    dsimp only at hatt
    set s' : SlotData × Option Block := (lastSlot.1, some (initDropped item)) with hs'
    rw [updateFirst_append [] hpre (by simp [hs'])] at hatt
    simp only [Option.getD_some, List.getLast?_concat] at hatt
    rw [show ((({ lastSlot.1 with
        label := "Condition " ++
          toString ((List.filter (fun input => input.2.isSome) (pre ++ [s'])).length) },
        s'.2) : SlotData × Option Block).1.id == lastSlot.1.id) = true by simp] at hatt
    simp only [Bool.true_and] at hatt
    have hcnteq : (List.filter (fun input => input.2.isSome) (pre ++ [s'])).length
        = (pre.filter (fun q => q.2.isSome)).length + 1 := by
      simp [List.filter_append, hs']
    rw [hcnteq] at hatt
    cases hbound : growthBoundOk ((d.properties.map Props.maxInputs).join)
        ((pre.filter (fun q => q.2.isSome)).length + 1) with
    | true =>
      rw [hbound] at hatt
      simp only [if_true] at hatt
      obtain rfl := Option.some.inj hatt
      constructor
      · intro _
        simp only [Block.inputs, hs', growthSlot]
        exact trailingEmptyCount_concat_growth pre _ _ _
      · intro hfalse
        simp [hbound] at hfalse
    | false =>
      rw [hbound] at hatt
      simp only [Bool.false_eq_true, if_false] at hatt
      obtain rfl := Option.some.inj hatt
      constructor
      · intro htrue
        simp [hbound] at htrue
      · intro _
        simp [Block.inputs]
  · intro d pre lastSlot item freshId b' hty hpre hatt
    unfold nestedAttachChild at hatt
    simp only [Block.inputs, Block.data, Block.type] at hatt
    rw [updateFirst_append [] hpre (by simp)] at hatt
    dsimp only at hatt
    have hop : (d.type == "operator") = true := by rw [hty]; rfl
    simp only [hop, if_true] at hatt
    set s' : SlotData × Option Block := (lastSlot.1, some (initDropped item)) with hs'
    simp only [List.getLast?_concat] at hatt
    rw [show ((s' : SlotData × Option Block).1.id == lastSlot.1.id) = true by simp [hs']] at hatt
    simp only [Bool.true_and] at hatt
    have hcnteq : (List.filter (fun input => input.2.isSome) (pre ++ [s'])).length
        = (pre.filter (fun q => q.2.isSome)).length + 1 := by
      simp [List.filter_append, hs']
    rw [hcnteq] at hatt
    cases hbound : growthBoundOk ((d.properties.map Props.maxInputs).join)
        ((pre.filter (fun q => q.2.isSome)).length + 1) with
    | true =>
      rw [hbound] at hatt
      simp only [if_true] at hatt
      obtain rfl := Option.some.inj hatt
      constructor
      · intro _
        simp only [Block.inputs, hs', growthSlot]
        exact trailingEmptyCount_concat_growth pre _ _ _
      · intro hfalse
        simp [hbound] at hfalse
    | false =>
      rw [hbound] at hatt
      simp only [Bool.false_eq_true, if_false] at hatt
      obtain rfl := Option.some.inj hatt
      constructor
      · intro htrue
        simp [hbound] at htrue
      · intro _
        simp [Block.inputs]

/-- C6 counterexample: on the concrete operator block with
`maxInputs = 0` and one empty slot, attaching into that (last) slot leaves
a connected-slot count of `1`, which has reached the bound `0` — yet the
code still appends a new empty slot (JS `!maxInputs` treats `0` as "no
bound"), growing the input list from 1 to 2 slots, contrary to the claim's
"no new empty slot is appended". -/
theorem c6_growth_invariant_counterexample :
    maxZeroOpBlock.data.properties.bind Props.maxInputs = some 0 ∧
    maxZeroOpBlock.inputs.length = 1 ∧
    (attachIntoOperator maxZeroOpBlock "slot0" contractNoMethodBlock "fresh-1").map
      (fun b => b.inputs.length) = some 2 :=
  ⟨rfl, rfl, rfl⟩

/-- C6 witness: attaching into the last slot of the concrete unbounded `or`
operator leaves exactly one trailing empty slot. -/
theorem c6_growth_invariant_witness :
    orOneSlotData.type = "operator" ∧
    (attachIntoOperator (.mk orOneSlotData [orOneSlot]) "slot0"
      contractNoMethodBlock "fresh-2").map (fun b => trailingEmptyCount b.inputs) = some 1 := by
  refine ⟨rfl, ?_⟩
  cases hatt : attachIntoOperator (.mk orOneSlotData [orOneSlot]) "slot0"
      contractNoMethodBlock "fresh-2" with
  | none =>
    have hsome : (attachIntoOperator (.mk orOneSlotData [orOneSlot]) "slot0"
        contractNoMethodBlock "fresh-2").isSome = true := rfl
    rw [hatt] at hsome
    cases hsome
  | some b' =>
    have h := (c6_growth_invariant.1 orOneSlotData [] orOneSlot contractNoMethodBlock
      "fresh-2" b' rfl (by simp) hatt).1 rfl
    simp [h]

/-! ## Claim C7: detach rebuilds the operator's inputs -/

/-- Helper: relabeling keeps every slot's connected child. -/
theorem relabelConditions_preserves_snd :
    ∀ (l : List (SlotData × Option Block)) (index : Nat),
      (∀ q ∈ l, q.2.isSome = true) →
      ∀ q ∈ relabelConditions index l, q.2.isSome = true := by
  intro l
  induction l with
  | nil => intro index _ q hq; cases hq
  | cons a as ih =>
    intro index h q hq
    rw [relabelConditions] at hq
    rcases List.mem_cons.mp hq with rfl | hq'
    · exact h a (by simp)
    · exact ih (index + 1) (fun x hx => h x (List.mem_cons_of_mem _ hx)) q hq'

/-- Helper: a list of connected slots followed by one empty growth slot has
exactly one trailing empty slot. -/
theorem trailingEmptyCount_all_connected (l : List (SlotData × Option Block)) (g : SlotData)
    (h : ∀ q ∈ l, q.2.isSome = true) :
    trailingEmptyCount (l ++ [(g, none)]) = 1 := by
  unfold trailingEmptyCount
  rw [List.reverse_append]
  simp only [List.reverse_cons, List.reverse_nil, List.nil_append, List.cons_append]
  rw [List.takeWhile_cons]
  simp only [Option.isNone_none, if_true]
  cases hl : l.reverse with
  | nil => simp
  | cons x xs =>
    have hx : x ∈ l := by
      rw [← List.mem_reverse, hl]
      simp
    obtain ⟨y, hy⟩ := Option.isSome_iff_exists.mp (h x hx)
    rw [List.takeWhile_cons, hy]
    simp

/-- C7: After detach of a connected child from an operator Block's slot,
the operator's input list equals exactly: every input whose `connected` is
still set, in their original relative order and relabeled
`Condition 1..k`, followed by exactly one fresh empty growth slot (so the
rebuilt list has exactly one trailing empty slot); the detached slot's
`connected` is cleared — the slot is dropped from the rebuilt list. -/
theorem c7_detach_rebuild :
    ∀ (d : BlockData) (pre post : List (SlotData × Option Block))
      (slot : SlotData × Option Block) (child : Block) (freshId : String),
      d.type = "operator" →
      (∀ q ∈ pre, (q.1.id == slot.1.id) = false) →
      slot.2 = some child →
      handleRemoveCondition (.mk d (pre ++ slot :: post)) slot.1.id freshId =
        .mk d (relabelConditions 0 ((pre ++ post).filter (fun q => q.2.isSome)) ++
          [growthSlot freshId]) ∧
      trailingEmptyCount
        (handleRemoveCondition (.mk d (pre ++ slot :: post)) slot.1.id freshId).inputs = 1 := by
  intro d pre post slot child freshId hty hpre hchild
  have hmain : handleRemoveCondition (.mk d (pre ++ slot :: post)) slot.1.id freshId =
      .mk d (relabelConditions 0 ((pre ++ post).filter (fun q => q.2.isSome)) ++
        [growthSlot freshId]) := by
    unfold handleRemoveCondition
    have hop : (Block.type (.mk d (pre ++ slot :: post)) == "operator") = true := by
      simp [Block.type, Block.data, hty]
    rw [hop]
    simp only [if_true, Block.inputs, Block.data]
    rw [updateFirst_append post hpre (by simp)]
    simp only [Option.getD_some]
    have hfil : (pre ++ ((slot.1, none) : SlotData × Option Block) :: post).filter
        (fun input => input.2.isSome) =
        (pre ++ post).filter (fun input => input.2.isSome) := by
      rw [List.filter_append, List.filter_cons, List.filter_append]
      simp
    rw [hfil]
  refine ⟨hmain, ?_⟩
  rw [hmain]
  simp only [Block.inputs]
  exact trailingEmptyCount_all_connected _ _
    (relabelConditions_preserves_snd _ 0 (fun q hq => (List.mem_filter.mp hq).2))

/-- C7 witness: detaching the first connected child of the concrete
two-child operator keeps the other child relabeled `Condition 1` and
appends one fresh empty growth slot. -/
theorem c7_detach_rebuild_witness :
    twoChildOpData.type = "operator" ∧
    slotAPair.2 = some chain999Block ∧
    handleRemoveCondition twoChildOpBlock "slotA" "fresh-3" =
      .mk twoChildOpData (relabelConditions 0
        (([] ++ [slotBPair, slotCPair]).filter (fun q => q.2.isSome)) ++
        [growthSlot "fresh-3"]) ∧
    trailingEmptyCount (handleRemoveCondition twoChildOpBlock "slotA" "fresh-3").inputs = 1 ∧
    (handleRemoveCondition twoChildOpBlock "slotA" "fresh-3").inputs.map
      (fun q => (q.1.id, q.1.label, q.2.isSome)) =
      [("slotB", "Condition 1", true), ("fresh-3", "Add Condition", false)] := by
  have h := c7_detach_rebuild twoChildOpData [] [slotBPair, slotCPair] slotAPair
    chain999Block "fresh-3" rfl (by simp) rfl
  exact ⟨rfl, rfl, h.1, h.2, rfl⟩

/-! ## Claim C9: the add-parameter operation -/

/-- Helper: `findIndex` over a list whose first match is explicitly
located. -/
theorem jsFindIndex_append_first {p : α → Bool} {pre : List α} {x : α} (post : List α)
    (hpre : ∀ y ∈ pre, p y = false) (hx : p x = true) :
    jsFindIndex p (pre ++ x :: post) = some pre.length := by
  induction pre with
  | nil => simp [jsFindIndex, hx]
  | cons a as ih =>
    have ha : p a = false := hpre a (by simp)
    simp only [List.cons_append, jsFindIndex, ha, Bool.false_eq_true, if_false, List.append_eq]
    rw [ih (fun y hy => hpre y (by simp [hy]))]
    simp

/-- Helper: `findIndex` over a list with no match. -/
theorem jsFindIndex_eq_none {p : α → Bool} {l : List α}
    (h : ∀ y ∈ l, p y = false) : jsFindIndex p l = none := by
  induction l with
  | nil => rfl
  | cons a as ih =>
    simp only [jsFindIndex, h a (by simp), Bool.false_eq_true, if_false]
    rw [ih (fun y hy => h y (by simp [hy]))]
    rfl

/-- Helper: splicing right after an explicitly located position. -/
theorem listInsertAt_after (a : α) (pre : List α) (x : α) (post : List α) :
    listInsertAt (pre.length + 1) a (pre ++ x :: post) = pre ++ x :: a :: post := by
  induction pre with
  | nil => rfl
  | cons b bs ih =>
    simp only [List.cons_append, List.length_cons, listInsertAt]
    exact congrArg (fun l => b :: l) ih

/-- C9 (amended): On a Block whose `properties.parameterCount` is `c ≥ 1`,
`handleAddParameter` creates the slot `param_<c>` labelled
`Parameter <c+1>`, inserts it immediately after the first input recognized
as `param_<c-1>` (appending at the end when no input is recognized — in
particular when there are no `param_*` slots at all), and sets
`parameterCount := c + 1`, leaving all other inputs unchanged.  When
`parameterCount` is absent or `0`, the code behaves as if it were `1` —
see the counterexample. -/
theorem c9_add_parameter :
    ∀ (d : BlockData) (props : Props) (c : Int),
      d.properties = some props →
      props.parameterCount = some c →
      1 ≤ c →
      (∀ (inputs : List (SlotData × Option Block)),
        (∀ q ∈ inputs, isParamSlot (c - 1) q = false) →
        handleAddParameter (.mk d inputs) =
          .mk { d with properties := some { props with parameterCount := some (c + 1) } }
            (inputs ++ [newParamSlot c])) ∧
      (∀ (pre post : List (SlotData × Option Block)) (q : SlotData × Option Block),
        (∀ y ∈ pre, isParamSlot (c - 1) y = false) →
        isParamSlot (c - 1) q = true →
        handleAddParameter (.mk d (pre ++ q :: post)) =
          .mk { d with properties := some { props with parameterCount := some (c + 1) } }
            (pre ++ q :: newParamSlot c :: post)) := by
  intro d props c hp hpc hc
  have hcz : ((c : Int) == 0) = false := by
    rw [beq_eq_false_iff_ne]
    omega
  have hparam : jsOrInt (d.properties.bind Props.parameterCount) 1 = c := by
    rw [hp]
    show jsOrInt (props.parameterCount) 1 = c
    rw [hpc]
    show (if (c == 0) = true then 1 else c) = c
    rw [hcz]
    simp
  constructor
  · intro inputs hno
    unfold handleAddParameter
    simp only [Block.data, Block.inputs, hparam]
    rw [jsFindIndex_eq_none hno]
    dsimp only
    rw [hp]
    rfl
  · intro pre post q hpre hq
    unfold handleAddParameter
    simp only [Block.data, Block.inputs, hparam]
    rw [jsFindIndex_append_first post hpre hq]
    dsimp only
    rw [listInsertAt_after]
    rw [hp]
    rfl

/-- C9 counterexample: on the concrete block whose `parameterCount` is `0`
(and which has no `param_*` inputs, so the invariant
"`parameterCount` equals the number of `param_N` slots" holds), the code
appends `param_1` labelled `Parameter 2` and sets `parameterCount := 2` —
the claim, instantiated at parameter count `c = 0`, predicts an appended
`param_0` labelled `Parameter 1` and a new count of `1`. -/
theorem c9_add_parameter_counterexample :
    paramZeroBlock.data.properties.bind Props.parameterCount = some 0 ∧
    (handleAddParameter paramZeroBlock).inputs.map (fun q => (q.1.id, q.1.label)) =
      [("param_1", "Parameter 2")] ∧
    (handleAddParameter paramZeroBlock).data.properties.bind Props.parameterCount = some 2 ∧
    ("param_1" : String) ≠ "param_0" ∧ ((2 : Int) ≠ 0 + 1) :=
  ⟨rfl, rfl, rfl, by decide, by decide⟩

/-- C9 witness: the amended theorem applied to the concrete two-parameter
block — the new `param_2` slot is inserted right after `param_1`, before
the `tokenAmount` slot, and the count becomes 3. -/
theorem c9_add_parameter_witness :
    paramTwoData.properties =
      some { canAddParameters := some true, parameterCount := some 2 } ∧
    handleAddParameter paramTwoBlock =
      .mk { paramTwoData with
              properties := some
                (Props.mk none none none none none (some 3) none none (some true)) }
        ([pSlotAddr, pSlot0] ++ pSlot1 :: newParamSlot 2 :: [pSlotAmt]) ∧
    (handleAddParameter paramTwoBlock).inputs.map (fun q => q.1.id) =
      ["contractAddress", "param_0", "param_1", "param_2", "tokenAmount"] := by
  have h := (c9_add_parameter paramTwoData
    { canAddParameters := some true, parameterCount := some 2 } 2 rfl rfl (by norm_num)).2
    [pSlotAddr, pSlot0] [pSlotAmt] pSlot1 (by decide) (by decide)
  exact ⟨rfl, h, rfl⟩

/-! ## Claim C8: the setValue frame property -/

/-- Characterization of a successful `find?`: the element sits after a
prefix with no match. -/
theorem find?_eq_some_split {p : α → Bool} {l : List α} {x : α}
    (h : l.find? p = some x) :
    ∃ pre post, l = pre ++ x :: post ∧ (∀ y ∈ pre, p y = false) ∧ p x = true := by
  induction l with
  | nil => cases h
  | cons a as ih =>
    by_cases hp : p a = true
    · rw [List.find?_cons_of_pos _ hp] at h
      obtain rfl := Option.some.inj h
      exact ⟨[], as, by simp, by simp, hp⟩
    · have hp' : p a = false := by
        cases hpa : p a
        · rfl
        · exact absurd hpa hp
      rw [List.find?_cons_of_neg _ (by simp [hp'])] at h
      obtain ⟨pre, post, rfl, hpre, hx⟩ := ih h
      refine ⟨a :: pre, post, by simp, ?_, hx⟩
      intro y hy
      rcases List.mem_cons.mp hy with rfl | hy'
      · exact hp'
      · exact hpre y hy'

/-- `skeletonSlots` distributes over append. -/
theorem skeletonSlots_append (l1 l2 : List (SlotData × Option Block)) :
    skeletonSlots (l1 ++ l2) = skeletonSlots l1 ++ skeletonSlots l2 := by
  induction l1 with
  | nil => simp [skeletonSlots]
  | cons a as ih =>
    obtain ⟨s, oc⟩ := a
    cases oc <;> simp [skeletonSlots, ih]

/-- The slot id consulted at the first navigation step of `valueAt`:
the target slot id for an empty path, the first path segment otherwise. -/
def headKey (path : List String) (slotId : String) : String :=
  match path with
  | [] => slotId
  | h :: _ => h

/-- Replacing one slot by a slot with the same id that the first navigation
step does not select leaves every `valueAt` read unchanged. -/
theorem valueAt_unchanged_elem (d : BlockData) (pre post : List (SlotData × Option Block))
    (x x' : SlotData × Option Block) (hid : x'.1.id = x.1.id)
    (path' : List String) (s' : String)
    (hnot : (x.1.id == headKey path' s') = false) :
    valueAt (.mk d (pre ++ x' :: post)) path' s' =
    valueAt (.mk d (pre ++ x :: post)) path' s' := by
  cases path' with
  | nil =>
    simp only [valueAt, Block.inputs, headKey] at hnot ⊢
    induction pre with
    | nil =>
      simp only [List.nil_append]
      rw [List.find?_cons_of_neg _ (by simp [hid, hnot]),
        List.find?_cons_of_neg _ (by simp [hnot])]
    | cons a as ih =>
      simp only [List.cons_append, List.find?_cons]
      cases ha : (a.1.id == s') <;> simp only [ha]
      exact ih
  | cons h' t' =>
    simp only [valueAt, Block.inputs, headKey] at hnot ⊢
    induction pre with
    | nil =>
      simp only [List.nil_append]
      rw [List.find?_cons_of_neg _ (by simp [hid, hnot]),
        List.find?_cons_of_neg _ (by simp [hnot])]
    | cons a as ih =>
      simp only [List.cons_append, List.find?_cons]
      cases ha : (a.1.id == h') <;> simp only [ha]
      exact ih

/-- Computing `valueAt` with a non-empty path at an explicitly located
first match. -/
theorem valueAt_selected (d : BlockData) (pre post : List (SlotData × Option Block))
    (x : SlotData × Option Block) (h' : String) (t' : List String) (s' : String)
    (hpre : ∀ y ∈ pre, (y.1.id == h') = false) (hx : (x.1.id == h') = true) :
    valueAt (.mk d (pre ++ x :: post)) (h' :: t') s' =
      match x.2 with
      | some connected => valueAt connected t' s'
      | none => none := by
  simp only [valueAt, Block.inputs]
  rw [find?_append_first post hpre hx]

/-- Reading a slot value (`valueAt` with empty path) only depends on the
slots' scalar data. -/
theorem valueAt_nil_same_data (d : BlockData) (pre post : List (SlotData × Option Block))
    (x x' : SlotData × Option Block) (hid : x'.1 = x.1) (s' : String) :
    valueAt (.mk d (pre ++ x' :: post)) [] s' =
    valueAt (.mk d (pre ++ x :: post)) [] s' := by
  simp only [valueAt, Block.inputs]
  induction pre with
  | nil =>
    simp only [List.nil_append, List.find?_cons, hid]
    cases hx : (x.1.id == s') <;> simp [hid]
  | cons a as ih =>
    simp only [List.cons_append, List.find?_cons]
    cases ha : (a.1.id == s') <;> simp only [ha]
    exact ih

/-- The inductive frame property of `findAndUpdateInput`: a successful
update leaves the skeleton unchanged, writes exactly the addressed slot's
value, and leaves every other addressed value unchanged. -/
theorem findAndUpdateInput_frame :
    ∀ (path : List String) (b : Block) (targetId v : String) (b' : Block),
      findAndUpdateInput b targetId path v = some b' →
      skeleton b' = skeleton b ∧
      valueAt b' path targetId = some (some v) ∧
      (∀ (path' : List String) (slotId' : String), path' ≠ path ∨ slotId' ≠ targetId →
        valueAt b' path' slotId' = valueAt b path' slotId') := by
  intro path
  induction path with
  | nil =>
    intro b targetId v b' h
    obtain ⟨d, inputs⟩ := b
    simp only [findAndUpdateInput, Block.inputs, Block.data, Option.map_eq_some'] at h
    obtain ⟨inputs', hupd, rfl⟩ := h
    obtain ⟨pre, x, post, rfl, hpre, hx, rfl⟩ := updateFirst_eq_some hupd
    have hxid : x.1.id = targetId := by simpa using hx
    refine ⟨?_, ?_, ?_⟩
    · simp only [skeleton, skeletonSlots_append]
      congr 1
      obtain ⟨s, oc⟩ := x
      cases oc <;> simp [skeletonSlots]
    · simp only [valueAt, Block.inputs]
      rw [find?_append_first post hpre (by simpa using hx)]
      rfl
    · intro path' slotId' hdiff
      cases path' with
      | nil =>
        rcases hdiff with hne | hne
        · exact absurd rfl hne
        · exact valueAt_unchanged_elem d pre post x ({ x.1 with value := some v }, x.2)
            rfl [] slotId' (by rw [hxid]; exact beq_eq_false_iff_ne.mpr (Ne.symm hne))
      | cons h' t' =>
        by_cases hsel : (x.1.id == h') = true
        · have hh : h' = targetId := by
            rw [← eq_of_beq hsel, hxid]
          subst hh
          rw [valueAt_selected d pre post ({ x.1 with value := some v }, x.2) h' t' slotId'
              hpre (by simpa using hx),
            valueAt_selected d pre post x h' t' slotId' hpre hx]
        · have hnot : (x.1.id == h') = false := by
            cases hx2 : (x.1.id == h')
            · rfl
            · exact absurd hx2 hsel
          exact valueAt_unchanged_elem d pre post x ({ x.1 with value := some v }, x.2)
            rfl (h' :: t') slotId' hnot
  | cons nextId rest ih =>
    intro b targetId v b' h
    obtain ⟨d, inputs⟩ := b
    simp only [findAndUpdateInput, Block.inputs, Block.data] at h
    cases hfind : inputs.find? (fun input => input.1.id == nextId) with
    | none => rw [hfind] at h; cases h
    | some nextInput =>
      rw [hfind] at h
      dsimp only at h
      cases hconn : nextInput.2 with
      | none => rw [hconn] at h; cases h
      | some connected =>
        rw [hconn] at h
        dsimp only at h
        simp only [Option.map_eq_some'] at h
        obtain ⟨c', hrec, rfl⟩ := h
        obtain ⟨hskel, hval, hframe⟩ := ih connected targetId v c' hrec
        obtain ⟨pre, post, hin, hpre, hxsel⟩ := find?_eq_some_split hfind
        subst hin
        have hupd : updateFirst (fun input => input.1.id == nextId)
            (fun input => (input.1, some c')) (pre ++ nextInput :: post) =
            some (pre ++ (nextInput.1, some c') :: post) :=
          updateFirst_append post hpre hxsel
        rw [hupd]
        simp only [Option.getD_some]
        refine ⟨?_, ?_, ?_⟩
        · simp only [skeleton, skeletonSlots_append]
          congr 1
          obtain ⟨n1, noc⟩ := nextInput
          simp only at hconn
          subst hconn
          simp [skeletonSlots, hskel]
        · rw [valueAt_selected d pre post (nextInput.1, some c') nextId rest targetId
            hpre (by simpa using hxsel)]
          exact hval
        · intro path' slotId' hdiff
          cases path' with
          | nil =>
            exact valueAt_nil_same_data d pre post nextInput (nextInput.1, some c') rfl slotId'
          | cons h' t' =>
            by_cases hsel2 : (nextInput.1.id == h') = true
            · have hh : h' = nextId := by
                rw [← eq_of_beq hsel2, eq_of_beq hxsel]
              subst hh
              rw [valueAt_selected d pre post (nextInput.1, some c') h' t' slotId'
                  hpre (by simpa using hxsel),
                valueAt_selected d pre post nextInput h' t' slotId' hpre hxsel]
              rw [hconn]
              dsimp only
              apply hframe
              rcases hdiff with hne | hne
              · left
                intro hEq
                exact hne (by rw [hEq])
              · right
                exact hne
            · have hnot : (nextInput.1.id == h') = false := by
                cases hx2 : (nextInput.1.id == h')
                · rfl
                · exact absurd hx2 hsel2
              exact valueAt_unchanged_elem d pre post nextInput (nextInput.1, some c')
                rfl (h' :: t') slotId' hnot

/-- C8: The setValue operation (`handleValueChange`, possibly through a
path of input ids into connected children) changes only the `value` field
of the addressed slot: the returned tree has the same skeleton (every
other field of every block, in particular every slot's `connected`, is
unchanged), the addressed slot holds the new value, and every other
addressed slot value reads unchanged. -/
theorem c8_set_value_frame :
    ∀ (b : Block) (inputId v : String) (parentPath : List String) (b' : Block),
      handleValueChange b inputId v parentPath = some b' →
      skeleton b' = skeleton b ∧
      valueAt b' parentPath inputId = some (some v) ∧
      (∀ (path' : List String) (slotId' : String),
        path' ≠ parentPath ∨ slotId' ≠ inputId →
        valueAt b' path' slotId' = valueAt b path' slotId') := by
  intro b inputId v parentPath b' h
  have heq : handleValueChange b inputId v parentPath =
      findAndUpdateInput b inputId parentPath v := by
    cases parentPath with
    | nil => rfl
    | cons a t => rfl
  rw [heq] at h
  exact findAndUpdateInput_frame parentPath b inputId v b' h

/-- C8 witness: editing the nested `chain` slot of the child connected at
`slotA` of the concrete two-child operator preserves the skeleton, writes
the new value, and leaves the sibling subtree's `chain` value unchanged. -/
theorem c8_set_value_frame_witness :
    (handleValueChange twoChildOpBlock "chain" "137" ["slotA"]).map skeleton =
      some (skeleton twoChildOpBlock) ∧
    (handleValueChange twoChildOpBlock "chain" "137" ["slotA"]).map
      (fun b' => valueAt b' ["slotA"] "chain") = some (some (some "137")) ∧
    (handleValueChange twoChildOpBlock "chain" "137" ["slotA"]).map
      (fun b' => valueAt b' ["slotB"] "chain") =
      some (valueAt twoChildOpBlock ["slotB"] "chain") := by
  cases hh : handleValueChange twoChildOpBlock "chain" "137" ["slotA"] with
  | none =>
    have hsome : (handleValueChange twoChildOpBlock "chain" "137" ["slotA"]).isSome = true := rfl
    rw [hh] at hsome
    cases hsome
  | some b' =>
    obtain ⟨h1, h2, h3⟩ := c8_set_value_frame twoChildOpBlock "chain" "137" ["slotA"] b' hh
    exact ⟨by simp [h1], by simp [h2],
      by simp [h3 ["slotB"] "chain" (by left; decide)]⟩
